import Mathlib

/-!
# Verification of the run execution and evaluation aggregation engine

Shallow embedding of `openml/runs/functions.py`: the partition sweep
(`_run_task_get_arffcontent`), the per-task-type prediction row encoding,
the per-fold / per-sample evaluation measure aggregation, the duplicate-run
guard (`run_exists` and its caller in `run_flow_on_task`), and the run
document decoder (`_create_run_from_xml`).

Conventions of the embedding:
* Python's dynamically typed values appearing in prediction rows are
  modelled by the `Field` inductive; predictions (class indices for
  classification/clustering, numeric values for regression) by `Pred`.
* Python list indexing `xs[i]` is modelled totally with `List.getD`
  (a default is returned out of bounds); all theorems that depend on the
  indexed values carry in-bounds hypotheses.
* External collaborators (the extension's `_run_model_on_fold`,
  `is_hpo_class`, `_extract_trace_data`, the network listing, the remote
  task lookup) are abstracted as parameters, exactly at the boundary the
  source calls them.
* Exceptions are modelled with `Except`; each Python exception type has a
  constructor in the corresponding error inductive.
-/

namespace OpenMLRuns

/-- Task types distinguished by the engine (`TaskTypeEnum` and the
`OpenML*Task` class hierarchy). `other` covers any unrecognized kind. -/
inductive TaskType
  | classification
  | learningCurve
  | regression
  | clustering
  | subgroupDiscovery
  | other (name : String)
  deriving DecidableEq, Repr

/-- `isinstance(task, OpenMLSupervisedTask)`: classification, regression and
learning-curve tasks are the supervised subclasses. -/
def TaskType.isSupervised : TaskType → Bool
  | .classification => true
  | .learningCurve => true
  | .regression => true
  | _ => false

/-- `isinstance(task, (OpenMLClassificationTask, OpenMLLearningCurveTask))`:
in the library `OpenMLLearningCurveTask` is a subclass of
`OpenMLClassificationTask`, so an `isinstance` check against the
classification class also covers learning-curve tasks. -/
def TaskType.isClassificationInstance : TaskType → Bool
  | .classification => true
  | .learningCurve => true
  | _ => false

/-- A dynamically typed value as it appears in an ARFF prediction row. -/
inductive Field
  | nat (n : Nat)
  | rat (q : Rat)
  | str (s : String)
  deriving DecidableEq, Repr

/-- A prediction produced by the model for one test instance: a class or
cluster index (`cls`) or a regression value (`val`). -/
inductive Pred
  | cls (n : Nat)
  | val (q : Rat)
  deriving DecidableEq, Repr

/-- Read a prediction as a class/cluster index (Python would have an int
here; a numeric value defaults to 0). -/
def Pred.asCls : Pred → Nat
  | .cls n => n
  | .val _ => 0

/-- Read a prediction as a numeric value (a Python int is also a number). -/
def Pred.asVal : Pred → Rat
  | .cls n => (n : Rat)
  | .val q => q

/-- Render a prediction as a row field, preserving its dynamic type. -/
def Pred.toField : Pred → Field
  | .cls n => Field.nat n
  | .val q => Field.rat q

/-- The task object as read by the engine: type, split dimensions
(`get_split_dimensions`), class vocabulary, the full label vector `y`
(as a function from global row index), and the deterministic test index
sets per (repeat, fold, sample) (`get_train_test_split_indices`). -/
structure Task where
  task_id : Nat
  taskType : TaskType
  num_repeats : Nat
  num_folds : Nat
  num_samples : Nat
  class_labels : List String
  y : Nat → Pred
  test_indices : Nat → Nat → Nat → List Nat
  train_indices : Nat → Nat → Nat → List Nat

/-- One trace row extracted from a fitted hyperparameter-search model. -/
abbrev TraceRow : Type := List Field

/-- What the extension's `_run_model_on_fold` returns for one partition
cell: predictions, the class-probability matrix, the measures the model
itself reports for that fold, and the fitted model state. -/
structure FoldOutput (M : Type) where
  pred_y : List Pred
  proba_y : List (List Rat)
  measures : List (String × Rat)
  model_fold : M

/-- The extension collaborator, abstracted at the call boundary: the fold
executor, the hyperparameter-search detector and the trace-row extractor. -/
structure Extension (M : Type) where
  run_model_on_fold : M → Task → Nat → Nat → Nat → FoldOutput M
  is_hpo_class : M → Bool
  extract_trace_data : M → Nat → Nat → List TraceRow

/-! ## The partition sweep: `_run_task_get_arffcontent` -/

/-- Python exceptions escaping `_run_task_get_arffcontent`. -/
inductive RunError
  | notImplementedTaskType    -- `raise NotImplementedError(task.task_type)` in the slicing dispatch
  | typeErrorTaskType         -- `raise TypeError(type(task))` in the row encoder
  | nameError                 -- `model_fold` referenced after a sweep with zero cells
  deriving DecidableEq, Repr

/-- The spec groups the two task-type dispatch failures (slicing
`NotImplementedError` and row-encoder `TypeError`) under one
`UnsupportedTaskType` condition. -/
def RunError.isUnsupportedTaskType : RunError → Bool
  | .notImplementedTaskType => true
  | .typeErrorTaskType => true
  | .nameError => false

/-- `test_y = y[test_indices]`: the true-label slice for one cell. -/
def test_y_slice (task : Task) (test_indices : List Nat) : List Pred :=
  test_indices.map task.y

/-- `sklearn.metrics.accuracy_score` (external collaborator): fraction of
positions where prediction equals truth. -/
def accuracy_score (y_true y_pred : List Pred) : Rat :=
  if y_true.length = 0 then 0
  else ((y_true.zip y_pred).countP (fun p => p.1 == p.2) : Rat) / (y_true.length : Rat)

/-- `sklearn.metrics.mean_absolute_error` (external collaborator). -/
def mean_absolute_error (y_true y_pred : List Pred) : Rat :=
  if y_true.length = 0 then 0
  else (((y_true.zip y_pred).map (fun p => |p.1.asVal - p.2.asVal|)).sum) / (y_true.length : Rat)

/-- Python dict assignment `d[k] = v` on an ordered association list:
replace in place when the key exists, append otherwise. -/
def updateMeasure (ms : List (String × Rat)) (k : String) (v : Rat) :
    List (String × Rat) :=
  if ms.any (fun p => p.1 == k) then
    ms.map (fun p => if p.1 == k then (k, v) else p)
  else
    ms ++ [(k, v)]

/-- The slicing dispatch at the head of the loop body: supervised tasks get
feature/label slices and (for classification instances) `n_classes`;
clustering tasks pass index sets directly; any other kind raises
`NotImplementedError`. Returns the updated `n_classes`. -/
def sliceDispatch (task : Task) (n_classes : Option Nat) :
    Except RunError (Option Nat) :=
  if task.taskType.isSupervised then
    Except.ok (if task.taskType.isClassificationInstance
               then some task.class_labels.length else n_classes)
  else if task.taskType = TaskType.clustering then
    Except.ok n_classes
  else
    Except.error RunError.notImplementedTaskType

/-- The task-type-branched prediction row encoder for one cell. Each test
instance `i` contributes one row:
* classification / learning-curve:
  `[rep, fold, sample, i, proba_y[i][0], …, proba_y[i][k-1],
    class_labels[pred_y[i]], class_labels[test_y[i]]]`;
* regression: `[rep, fold, test_indices[i], pred_y[i], test_y[i]]`;
* clustering: `[test_indices[i], pred_y[i]]`;
* any other task type raises `TypeError`. -/
def encodeFoldRows (task : Task) (rep_no fold_no sample_no : Nat)
    (test_indices : List Nat) (pred_y : List Pred) (proba_y : List (List Rat)) :
    Except RunError (List (List Field)) :=
  let test_y := test_y_slice task test_indices
  if task.taskType.isClassificationInstance then
    Except.ok ((List.range test_indices.length).map (fun i =>
      [Field.nat rep_no, Field.nat fold_no, Field.nat sample_no, Field.nat i]
      ++ (List.range task.class_labels.length).map
           (fun j => Field.rat ((proba_y.getD i []).getD j 0))
      ++ [Field.str (task.class_labels.getD ((pred_y.getD i (Pred.cls 0)).asCls) ""),
          Field.str (task.class_labels.getD ((test_y.getD i (Pred.cls 0)).asCls) "")]))
  else if task.taskType = TaskType.regression then
    Except.ok ((List.range test_indices.length).map (fun i =>
      [Field.nat rep_no, Field.nat fold_no, Field.nat (test_indices.getD i 0),
       (pred_y.getD i (Pred.val 0)).toField, (test_y.getD i (Pred.val 0)).toField]))
  else if task.taskType = TaskType.clustering then
    Except.ok ((List.range test_indices.length).map (fun i =>
      [Field.nat (test_indices.getD i 0), (pred_y.getD i (Pred.cls 0)).toField]))
  else
    Except.error RunError.typeErrorTaskType

/-- The client-side consistency measures added to the fold's measure
mapping (`_calculate_local_measure`): accuracy for classification
instances, mean absolute error for regression, nothing otherwise. -/
def localMeasures (task : Task) (add_local_measures : Bool)
    (test_indices : List Nat) (pred_y : List Pred)
    (ms : List (String × Rat)) : List (String × Rat) :=
  let test_y := test_y_slice task test_indices
  if task.taskType.isClassificationInstance then
    if add_local_measures then
      updateMeasure ms "predictive_accuracy" (accuracy_score test_y pred_y)
    else ms
  else if task.taskType = TaskType.regression then
    if add_local_measures then
      updateMeasure ms "mean_absolute_error" (mean_absolute_error test_y pred_y)
    else ms
  else ms

/-- The nested evaluation maps, as total lookup functions
(measure → repeat → fold (→ sample) → value). -/
def PerFold : Type := String → Nat → Nat → Option Rat

def PerSample : Type := String → Nat → Nat → Nat → Option Rat

/-- The `for measure in user_defined_measures_fold` loop: write each
measure's fold value into the per-fold map at (measure, rep, fold) and its
sample value into the per-sample map at (measure, rep, fold, sample). -/
def applyMeasures (pf : PerFold) (ps : PerSample)
    (rep_no fold_no sample_no : Nat) (ms : List (String × Rat)) :
    PerFold × PerSample :=
  ms.foldl (fun acc p =>
    (fun m r f => if m = p.1 ∧ r = rep_no ∧ f = fold_no then some p.2 else acc.1 m r f,
     fun m r f s => if m = p.1 ∧ r = rep_no ∧ f = fold_no ∧ s = sample_no
                    then some p.2 else acc.2 m r f s))
    (pf, ps)

/-- Mutable state threaded through the sweep: the prediction table, the
trace rows, both evaluation maps, the loop variables `model_fold` and
`n_classes` that survive iterations, and (for verification) the log of
fold-executor invocations. -/
structure SweepState (M : Type) where
  arff_datacontent : List (List Field)
  arff_tracecontent : List TraceRow
  per_fold : PerFold
  per_sample : PerSample
  model_fold : Option M
  n_classes : Option Nat
  calls : List (Nat × Nat × Nat)

/-- The initial sweep state (empty accumulators, unbound loop variables). -/
def initState (M : Type) : SweepState M :=
  { arff_datacontent := []
    arff_tracecontent := []
    per_fold := fun _ _ _ => none
    per_sample := fun _ _ _ _ => none
    model_fold := none
    n_classes := none
    calls := [] }

/-- One iteration of the sweep's innermost loop body, in source order:
split indices, slicing dispatch, fold executor, trace extraction, row
encoding plus local measures, accumulator updates. -/
def sweepBody {M : Type} (ext : Extension M) (model : M) (task : Task)
    (add_local_measures : Bool) (st : SweepState M)
    (rep_no fold_no sample_no : Nat) : Except RunError (SweepState M) := do
  let test_indices := task.test_indices rep_no fold_no sample_no
  let n_classes ← sliceDispatch task st.n_classes
  let out := ext.run_model_on_fold model task rep_no fold_no sample_no
  let arff_datacontent_fold : List (List Field) := []
  let arff_tracecontent_fold : List TraceRow :=
    if ext.is_hpo_class out.model_fold then
      ext.extract_trace_data out.model_fold rep_no fold_no
    else []
  let rows ← encodeFoldRows task rep_no fold_no sample_no
                test_indices out.pred_y out.proba_y
  let measures := localMeasures task add_local_measures
                    test_indices out.pred_y out.measures
  let (pf, ps) := applyMeasures st.per_fold st.per_sample
                    rep_no fold_no sample_no measures
  Except.ok
    { arff_datacontent := st.arff_datacontent ++ rows ++ arff_datacontent_fold
      arff_tracecontent := st.arff_tracecontent ++ arff_tracecontent_fold
      per_fold := pf
      per_sample := ps
      model_fold := some out.model_fold
      n_classes := n_classes
      calls := st.calls ++ [(rep_no, fold_no, sample_no)] }

/-- What the sweep returns: the prediction table, the optional trace —
`obtain_arff_trace(model_fold, arff_tracecontent)` is modelled as the pair
of its two arguments, since building the trace object is extension
territory — both evaluation maps, and the invocation log. -/
structure SweepResult (M : Type) where
  arff_datacontent : List (List Field)
  trace : Option (M × List TraceRow)
  per_fold : PerFold
  per_sample : PerSample
  calls : List (Nat × Nat × Nat)

/-- `_run_task_get_arffcontent`: the triple nested loop over
repeat × fold × sample followed by the trace construction from the last
fitted model. -/
def run_task_get_arffcontent {M : Type} (ext : Extension M) (model : M)
    (task : Task) (add_local_measures : Bool) :
    Except RunError (SweepResult M) := do
  let st ← (List.range task.num_repeats).foldlM (fun st rep_no =>
      (List.range task.num_folds).foldlM (fun st fold_no =>
        (List.range task.num_samples).foldlM (fun st sample_no =>
          sweepBody ext model task add_local_measures st rep_no fold_no sample_no)
        st) st) (initState M)
  if ext.is_hpo_class model then
    match st.model_fold with
    | some m =>
        Except.ok { arff_datacontent := st.arff_datacontent
                    trace := some (m, st.arff_tracecontent)
                    per_fold := st.per_fold
                    per_sample := st.per_sample
                    calls := st.calls }
    | none => Except.error RunError.nameError
  else
    Except.ok { arff_datacontent := st.arff_datacontent
                trace := none
                per_fold := st.per_fold
                per_sample := st.per_sample
                calls := st.calls }

/-! ## Derived forms of the sweep used by the verification -/

/-- The recognized task kinds: the supervised ones (classification,
learning-curve, regression) and clustering. Anything else trips the
task-type dispatch. -/
def TaskType.isRecognized (t : TaskType) : Bool :=
  t.isSupervised || (t == TaskType.clustering)

/-- The cells of one partition sweep in iteration order: repeat outermost,
fold middle, sample innermost. -/
def sampleCells (r f ns : Nat) : List (Nat × Nat × Nat) :=
  (List.range ns).map (fun s => (r, f, s))

def foldCells (r nf ns : Nat) : List (Nat × Nat × Nat) :=
  (List.range nf).flatMap (fun f => sampleCells r f ns)

def lexCells (nr nf ns : Nat) : List (Nat × Nat × Nat) :=
  (List.range nr).flatMap (fun r => foldCells r nf ns)

/-- Strict lexicographic order on sweep cells. -/
def cellLt (c d : Nat × Nat × Nat) : Prop :=
  c.1 < d.1 ∨ (c.1 = d.1 ∧ (c.2.1 < d.2.1 ∨ (c.2.1 = d.2.1 ∧ c.2.2 < d.2.2)))

/-- The fold executor's output at one cell. -/
def cellFold {M : Type} (ext : Extension M) (model : M) (task : Task)
    (c : Nat × Nat × Nat) : FoldOutput M :=
  ext.run_model_on_fold model task c.1 c.2.1 c.2.2

/-- The trace rows contributed by one cell. -/
def cellTraceRows {M : Type} (ext : Extension M) (model : M) (task : Task)
    (c : Nat × Nat × Nat) : List TraceRow :=
  if ext.is_hpo_class (cellFold ext model task c).model_fold then
    ext.extract_trace_data (cellFold ext model task c).model_fold c.1 c.2.1
  else []

/-- The prediction rows contributed by one cell (the encoder's output when
it succeeds, the empty list on its error — unreachable for recognized
task types). -/
def cellRows {M : Type} (ext : Extension M) (model : M) (task : Task)
    (c : Nat × Nat × Nat) : List (List Field) :=
  ((encodeFoldRows task c.1 c.2.1 c.2.2 (task.test_indices c.1 c.2.1 c.2.2)
      (cellFold ext model task c).pred_y
      (cellFold ext model task c).proba_y).toOption).getD []

/-- The fold measure mapping of one cell after the local consistency
measures are added. -/
def cellMeasures {M : Type} (ext : Extension M) (model : M) (task : Task)
    (add_local_measures : Bool) (c : Nat × Nat × Nat) : List (String × Rat) :=
  localMeasures task add_local_measures (task.test_indices c.1 c.2.1 c.2.2)
    (cellFold ext model task c).pred_y
    (cellFold ext model task c).measures

/-- The pure form of `sweepBody` for recognized task types. -/
def sweepStep {M : Type} (ext : Extension M) (model : M) (task : Task)
    (add_local_measures : Bool) (st : SweepState M) (c : Nat × Nat × Nat) :
    SweepState M :=
  let out := cellFold ext model task c
  let pfps := applyMeasures st.per_fold st.per_sample c.1 c.2.1 c.2.2
                (cellMeasures ext model task add_local_measures c)
  { arff_datacontent := st.arff_datacontent ++ cellRows ext model task c
    arff_tracecontent := st.arff_tracecontent ++ cellTraceRows ext model task c
    per_fold := pfps.1
    per_sample := pfps.2
    model_fold := some out.model_fold
    n_classes := if task.taskType.isClassificationInstance
                 then some task.class_labels.length else st.n_classes
    calls := st.calls ++ [c] }

/-- Processing a list of cells with the pure sweep step. -/
def processCells {M : Type} (ext : Extension M) (model : M) (task : Task)
    (add_local_measures : Bool) (L : List (Nat × Nat × Nat))
    (st : SweepState M) : SweepState M :=
  L.foldl (sweepStep ext model task add_local_measures) st

/-- The hypothesis that one measure named `m` appears (with distinct
measure names) in every cell's fold measure mapping, with value `v r f s`
at cell (r, f, s). The local consistency measures, for instance, satisfy
this for every supervised task. -/
def MeasureAt {M : Type} (ext : Extension M) (model : M) (task : Task)
    (add_local_measures : Bool) (m : String) (v : Nat → Nat → Nat → Rat) :
    Prop :=
  ∀ r f s,
    ((cellMeasures ext model task add_local_measures (r, f, s)).map
        Prod.fst).Nodup
    ∧ (cellMeasures ext model task add_local_measures (r, f, s)).lookup m
        = some (v r f s)

/-! ## Probability padding for absent classes (fold executor boundary) -/

/-- Modelled from the spec: the fold executor (`_run_model_on_fold`, whose
code lives in the extension module outside this repository slice) may
receive from the model a probability matrix with columns for only a subset
of the task's known class labels; it re-aligns each probability row to one
column per known class label, padding the columns of absent classes with
zero probability. `model_classes` lists the class indices the model
produced columns for, in column order. -/
def padProbaRow (n_classes : Nat) (model_classes : List Nat)
    (row : List Rat) : List Rat :=
  (List.range n_classes).map (fun j =>
    match model_classes.indexOf? j with
    | some k => row.getD k 0
    | none => 0)

/-- Modelled from the spec: the fold executor reports the class-count
mismatch between the model's probability columns and the task's class
vocabulary as a non-fatal warning. -/
def probaMismatchWarning (n_classes : Nat) (model_classes : List Nat) : Bool :=
  model_classes.length != n_classes

/-! ## Duplicate-execution guard: `run_exists` and its caller -/

/-- The remote service error raised by the listing call. -/
structure OpenMLServerException where
  code : Int
  deriving DecidableEq, Repr

/-- Errors surfaced by `run_exists` and the duplicate guard in
`run_flow_on_task`. -/
inductive RunsError
  | assertionError
  | openMLRunsExist (ids : Finset Nat)
  deriving DecidableEq

/-- `run_exists(task_id, setup_id)`. The transport collaborator's answer to
`list_runs(task=[task_id], setup=[setup_id])` is passed in as `listing`
(the run ids that are the keys of the returned mapping, or the server
exception). The returned Bool records whether the listing query was
issued (False only on the non-positive-setup short circuit). -/
def run_exists (task_id : Int) (setup_id : Int)
    (listing : Except OpenMLServerException (List Nat)) :
    Except RunsError (Finset Nat × Bool) :=
  if setup_id ≤ 0 then
    -- openml setups are in range 1-inf
    Except.ok (∅, false)
  else
    match listing with
    | Except.ok result =>
        if result.length > 0 then Except.ok (result.toFinset, true)
        else Except.ok (∅, true)
    | Except.error exception =>
        -- error code 512 implies no results; any other code fails the assert
        if exception.code = 512 then Except.ok (∅, true)
        else Except.error RunsError.assertionError

/-- The duplicate-avoidance step of `run_flow_on_task`: call `run_exists`
and raise `OpenMLRunsExistError(ids, ...)` when the resulting id set is
non-empty. Returns whether a listing query was issued. -/
def run_flow_duplicate_guard (task_id : Int) (setup_id : Int)
    (listing : Except OpenMLServerException (List Nat)) :
    Except RunsError Bool := do
  let (ids, queried) ← run_exists task_id setup_id listing
  if ids ≠ ∅ then
    Except.error (RunsError.openMLRunsExist ids)
  else
    Except.ok queried

/-! ## The run document decoder: `_create_run_from_xml` -/

/-- Python exceptions escaping `_create_run_from_xml`. -/
inductive DecodeError
  | attributeError (fieldname : String)  -- `obtain_field` on a strict-missing field
  | keyError (fieldname : String)        -- direct subscript of an absent key
  | typeError                            -- `int(None)` in a cast
  | valueError (msg : String)
  | nameError (name : String)            -- `dataset_id` referenced while unbound
  | notImplementedSubgroupDiscovery
  deriving DecidableEq, Repr

/-- A document field is absent (`none`), present but null (`some none`) or
present with a value (`some (some v)`), matching xmltodict's output. -/
def XmlField (α : Type) : Type := Option (Option α)

/-- `obtain_field`: return the (cast) field value when the key is present,
`None` in lenient mode when absent, and raise `AttributeError` in strict
mode when absent. `cast` records whether `cast=int` was passed — casting a
present-but-null value raises `TypeError` (`int(None)`). -/
def obtain_field {α : Type} (x : XmlField α) (fieldname : String)
    (from_server : Bool) (cast : Bool) : Except DecodeError (Option α) :=
  match x with
  | some (some v) => Except.ok (some v)
  | some none =>
      if cast then Except.error DecodeError.typeError else Except.ok none
  | none =>
      if !from_server then Except.ok none
      else Except.error (DecodeError.attributeError fieldname)

/-- One `<oml:parameter_setting>` element. -/
structure ParamSetting where
  name : String
  value : String
  component : Option String
  deriving DecidableEq, Repr

/-- One `<oml:file>` element of `output_data`. -/
structure FileEntry where
  name : String
  file_id : Int
  deriving DecidableEq, Repr

/-- One `<oml:evaluation>` element of `output_data`. -/
structure EvalEntry where
  name : String
  value : Option Rat
  array_data : Option String
  at_repeat : Option Int
  at_fold : Option Int
  at_sample : Option Int
  deriving DecidableEq, Repr

/-- An evaluation value: a float or raw array data. -/
inductive EvalVal
  | num (q : Rat)
  | arr (s : String)
  deriving DecidableEq, Repr

/-- The `<oml:output_data>` element. An absent `oml:file`/`oml:evaluation`
key and an empty forced list behave identically (the loop body never
runs), so both are the empty list. -/
structure OutputData where
  file : List FileEntry
  evaluation : List EvalEntry
  deriving DecidableEq, Repr

/-- The parsed `<oml:run>` document. `input_data_dataset_did` collapses the
`input_data.dataset.did` nesting to the one integer the decoder reads. -/
structure RunXml where
  run_id : XmlField Int
  uploader : XmlField Int
  uploader_name : XmlField String
  task_id : XmlField Int
  task_type : XmlField String
  task_evaluation_measure : XmlField String
  flow_id : XmlField Int
  flow_name : XmlField String
  setup_id : XmlField Int
  setup_string : XmlField String
  parameter_setting : Option (List ParamSetting)
  input_data_dataset_did : Option Int
  output_data : Option OutputData
  tag : List String

/-- The decoded run record (the `OpenMLRun` constructor arguments the
decoder assembles). -/
structure OpenMLRunRec where
  run_id : Option Int
  uploader : Option Int
  uploader_name : Option String
  task_id : Int
  task_type : Option String
  task_evaluation_measure : Option String
  flow_id : Option Int
  flow_name : Option String
  setup_id : Option Int
  setup_string : Option String
  parameter_settings : Option (List ParamSetting)
  dataset_id : Option Int
  output_files : List (String × Int)
  evaluations : List (String × EvalVal)
  fold_evaluations : List (String × Int × Int × EvalVal)
  sample_evaluations : List (String × Int × Int × Int × EvalVal)
  tags : List String

/-- Accumulators for the `oml:evaluation` loop: plain, per-fold and
per-sample evaluation entries in document order. -/
def EvalAcc : Type :=
  List (String × EvalVal) × List (String × Int × Int × EvalVal)
    × List (String × Int × Int × Int × EvalVal)

/-- One iteration of the `oml:evaluation` loop: pick `value` or
`array_data` (else `ValueError`), then file the entry at sample, fold or
run granularity depending on which of `@repeat`/`@fold`/`@sample` are
present. -/
def parseEvaluation (acc : EvalAcc) (e : EvalEntry) :
    Except DecodeError EvalAcc := do
  let value ← match e.value with
    | some q => Except.ok (EvalVal.num q)
    | none =>
        match e.array_data with
        | some s => Except.ok (EvalVal.arr s)
        | none =>
            Except.error (DecodeError.valueError "no value or array_data in evaluation")
  match e.at_repeat, e.at_fold, e.at_sample with
  | some r, some f, some s =>
      Except.ok (acc.1, acc.2.1, acc.2.2 ++ [(e.name, r, f, s, value)])
  | some r, some f, none =>
      Except.ok (acc.1, acc.2.1 ++ [(e.name, r, f, value)], acc.2.2)
  | _, _, _ =>
      Except.ok (acc.1 ++ [(e.name, value)], acc.2.1, acc.2.2)

/-- `task_id = int(run['oml:task_id'])`: a direct subscript with a cast,
in both modes. -/
def read_task_id (x : XmlField Int) : Except DecodeError Int :=
  match x with
  | some (some v) => Except.ok v
  | some none => Except.error DecodeError.typeError
  | none => Except.error (DecodeError.keyError "oml:task_id")

/-- `not from_server and run['oml:flow_id'] is None`, with Python's
short-circuiting `and`: the key is subscripted (and may be found absent)
only in lenient mode. -/
def flow_id_is_null (x : XmlField Int) (from_server : Bool) :
    Except DecodeError Bool :=
  if !from_server then
    match x with
    | none => Except.error (DecodeError.keyError "oml:flow_id")
    | some v => Except.ok v.isNone
  else Except.ok false

/-- The flow id / parameter settings branch: a null flow id of a local run
stores no flow id and no parameter settings; otherwise the flow id is a
required (strict) field and the parameter settings list is copied. -/
def read_flow_and_parameters (run : RunXml) (from_server : Bool)
    (flowNull : Bool) :
    Except DecodeError (Option Int × Option (List ParamSetting)) :=
  if flowNull then
    Except.ok (none, none)
  else do
    let fid ← obtain_field run.flow_id "oml:flow_id" from_server true
    let params : List ParamSetting :=
      match run.parameter_setting with
      | some ps => ps.map (fun p =>
          { name := p.name, value := p.value, component := p.component })
      | none => []
    Except.ok (fid, some params)

/-- `dataset_id`: assigned from `input_data`, `None` in lenient mode when
absent, left unbound (`none` here) in strict mode when absent — the
unbound name is only detected at the construction site. -/
def read_dataset_id (x : Option Int) (from_server : Bool) :
    Option (Option Int) :=
  match x with
  | some did => some (some did)
  | none => if !from_server then some none else none

/-- The `output_data` block: the file mapping and the three evaluation
structures; absent `output_data` is a strict-mode error. -/
def read_output_data (x : Option OutputData) (from_server : Bool) :
    Except DecodeError (List (String × Int) × EvalAcc) :=
  match x with
  | none =>
      if from_server then
        Except.error (DecodeError.valueError "Run does not contain output_data")
      else Except.ok ([], ([], [], []))
  | some output_data => do
      let files := output_data.file.map (fun f => (f.name, f.file_id))
      let evs ← output_data.evaluation.foldlM parseEvaluation
        (([], [], []) : EvalAcc)
      Except.ok (files, evs)

/-- `_create_run_from_xml`. The remote task lookup
(`openml.tasks.get_task(task_id).task_type_id`, used only by the missing
predictions check) is abstracted as `get_task_type`. -/
def create_run_from_xml (run : RunXml) (from_server : Bool)
    (get_task_type : Int → TaskType) : Except DecodeError OpenMLRunRec := do
  let run_id ← obtain_field run.run_id "oml:run_id" from_server true
  let uploader ← obtain_field run.uploader "oml:uploader" from_server true
  let uploader_name ←
    obtain_field run.uploader_name "oml:uploader_name" from_server false
  let task_id ← read_task_id run.task_id
  let task_type ← obtain_field run.task_type "oml:task_type" from_server false
  -- even with the server requirement this field may be empty
  let task_evaluation_measure := run.task_evaluation_measure.join
  let flowNull ← flow_id_is_null run.flow_id from_server
  let fp ← read_flow_and_parameters run from_server flowNull
  let flow_name ← obtain_field run.flow_name "oml:flow_name" from_server false
  let setup_id ← obtain_field run.setup_id "oml:setup_id" from_server true
  let setup_string ←
    obtain_field run.setup_string "oml:setup_string" from_server false
  let dataset_id := read_dataset_id run.input_data_dataset_did from_server
  let fe ← read_output_data run.output_data from_server
  if !(fe.1.any (fun p => p.1 == "description")) && from_server then
    Except.error (DecodeError.valueError "No description file for run")
  else if !(fe.1.any (fun p => p.1 == "predictions")) && from_server then
    if get_task_type task_id = TaskType.subgroupDiscovery then
      Except.error DecodeError.notImplementedSubgroupDiscovery
    else
      Except.error (DecodeError.valueError "No prediction files for run")
  else
    match dataset_id with
    | none => Except.error (DecodeError.nameError "dataset_id")
    | some dataset_id =>
        Except.ok
          { run_id := run_id
            uploader := uploader
            uploader_name := uploader_name
            task_id := task_id
            task_type := task_type
            task_evaluation_measure := task_evaluation_measure
            flow_id := fp.1
            flow_name := flow_name
            setup_id := setup_id
            setup_string := setup_string
            parameter_settings := fp.2
            dataset_id := dataset_id
            output_files := fe.1
            evaluations := fe.2.1
            fold_evaluations := fe.2.2.1
            sample_evaluations := fe.2.2.2
            tags := run.tag }

/-! ## Theorems: the duplicate-execution guard -/

/-- C5: `run_exists` short-circuits to the empty set without querying when
the setup id is non-positive; a code-512 ("no results") server error is
normalized to the empty set; otherwise the run ids of the listing are
returned, and a non-empty id set makes the duplicate-avoiding caller raise
`OpenMLRunsExistError` carrying exactly those ids. -/
theorem run_exists_duplicate_guard_spec (task_id setup_id : Int)
    (listing : Except OpenMLServerException (List Nat)) :
    (setup_id ≤ 0 →
      run_exists task_id setup_id listing = Except.ok (∅, false))
    ∧ (∀ e : OpenMLServerException, 0 < setup_id →
        listing = Except.error e → e.code = 512 →
        run_exists task_id setup_id listing = Except.ok (∅, true))
    ∧ (∀ ids : List Nat, 0 < setup_id → listing = Except.ok ids → ids ≠ [] →
        run_exists task_id setup_id listing = Except.ok (ids.toFinset, true)
        ∧ run_flow_duplicate_guard task_id setup_id listing =
            Except.error (RunsError.openMLRunsExist ids.toFinset)) := by
  refine ⟨?_, ?_, ?_⟩
  · intro h
    simp [run_exists, h]
  · intro e hpos hl hc
    subst hl
    simp [run_exists, not_le.mpr hpos, hc]
  · intro ids hpos hl hne
    subst hl
    have hlen : 0 < ids.length := List.length_pos.mpr hne
    have hex : run_exists task_id setup_id (Except.ok ids)
        = Except.ok (ids.toFinset, true) := by
      simp [run_exists, not_le.mpr hpos, hlen]
    refine ⟨hex, ?_⟩
    have hts : ids.toFinset ≠ ∅ := by
      simpa [List.toFinset_eq_empty_iff] using hne
    simp [run_flow_duplicate_guard, hex, hts, Bind.bind, Except.bind]

/-- Witness for C5 at concrete inputs: setup 0 short-circuits; setup 5 with
listing run ids [10, 11] raises `OpenMLRunsExistError({10, 11})`. -/
theorem run_exists_duplicate_guard_spec_witness :
    run_exists 1 0 (Except.ok [10, 11]) = Except.ok (∅, false)
    ∧ run_flow_duplicate_guard 1 5 (Except.ok [10, 11]) =
        Except.error (RunsError.openMLRunsExist {10, 11}) := by
  constructor
  · exact (run_exists_duplicate_guard_spec 1 0 (Except.ok [10, 11])).1 (by decide)
  · have h := ((run_exists_duplicate_guard_spec 1 5 (Except.ok [10, 11])).2.2
      [10, 11] (by decide) rfl (by decide)).2
    have he : ([10, 11] : List Nat).toFinset = ({10, 11} : Finset Nat) := by decide
    rw [he] at h
    exact h

/-- C10: a listing failure whose server error code differs from 512 makes
`run_exists` fail the `assert (exception.code == 512)`, raising
`AssertionError` instead of propagating the original error or returning. -/
theorem run_exists_assert_non512 (task_id setup_id : Int)
    (e : OpenMLServerException) (hpos : 0 < setup_id) (hc : e.code ≠ 512) :
    run_exists task_id setup_id (Except.error e) =
      Except.error RunsError.assertionError := by
  simp [run_exists, not_le.mpr hpos, hc]

/-- Witness for C10: a code-500 server error at setup 5. -/
theorem run_exists_assert_non512_witness :
    run_exists 1 5 (Except.error ⟨500⟩) =
      Except.error RunsError.assertionError :=
  run_exists_assert_non512 1 5 ⟨500⟩ (by decide) (by decide)

/-! ## Theorems: zero-padding of absent class probabilities -/

theorem getD_map_range {α : Type} (g : Nat → α) {n j : Nat} (d : α)
    (hj : j < n) : ((List.range n).map g).getD j d = g j := by
  simp [List.getD_eq_getElem?_getD, List.getElem?_map, List.getElem?_range hj]

theorem indexOf?_eq_none_of_not_mem {a : Nat} {l : List Nat} (h : a ∉ l) :
    l.indexOf? a = none := by
  rw [List.indexOf?_eq_none_iff]
  intro x hx
  simp only [beq_iff_eq]
  rintro rfl
  exact h hx

theorem padProbaRow_getD_of_not_mem {nc j : Nat} (mc : List Nat)
    (row : List Rat) (hj : j < nc) (hnot : j ∉ mc) :
    (padProbaRow nc mc row).getD j 0 = 0 := by
  rw [padProbaRow, getD_map_range _ _ hj, indexOf?_eq_none_of_not_mem hnot]

theorem padded_matrix_entry {nc j : Nat} (mc : List Nat)
    (pr : List (List Rat)) (i : Nat) (hj : j < nc) (hnot : j ∉ mc) :
    ((pr.map (padProbaRow nc mc)).getD i []).getD j 0 = 0 := by
  rcases Nat.lt_or_ge i pr.length with hlt | hge
  · have h : (pr.map (padProbaRow nc mc)).getD i []
        = padProbaRow nc mc (pr.getD i []) := by
      simp [List.getD_eq_getElem?_getD, List.getElem?_map,
        List.getElem?_eq_getElem hlt]
    rw [h]
    exact padProbaRow_getD_of_not_mem mc _ hj hnot
  · rw [List.getD_eq_getElem?_getD (pr.map (padProbaRow nc mc)) i [],
        List.getElem?_eq_none (by simpa using hge)]
    rfl

/-- C7: when the model reports probabilities for only a subset of the
task's known class labels, the padded probability row still has one entry
per known class label with zero at every absent class, the mismatch is
reported as a (non-fatal) warning, and the row encoder succeeds, emitting
a zero probability field for the absent class in every test instance's
row. -/
theorem classification_rows_zero_padded (task : Task)
    (rep_no fold_no sample_no : Nat) (test_indices : List Nat)
    (pred_y : List Pred) (proba_raw : List (List Rat))
    (model_classes : List Nat)
    (hcls : task.taskType.isClassificationInstance = true)
    (j : Nat) (hj : j < task.class_labels.length) (hnot : j ∉ model_classes) :
    (∀ row, (padProbaRow task.class_labels.length model_classes row).length
        = task.class_labels.length)
    ∧ (∀ row,
        (padProbaRow task.class_labels.length model_classes row).getD j 0 = 0)
    ∧ (model_classes.length < task.class_labels.length →
        probaMismatchWarning task.class_labels.length model_classes = true)
    ∧ ∃ rows,
        encodeFoldRows task rep_no fold_no sample_no test_indices pred_y
            (proba_raw.map (padProbaRow task.class_labels.length model_classes))
          = Except.ok rows
        ∧ rows.length = test_indices.length
        ∧ ∀ i, i < test_indices.length →
            (rows.getD i []).getD (4 + j) (Field.nat 0) = Field.rat 0 := by
  refine ⟨?_, fun row => padProbaRow_getD_of_not_mem model_classes row hj hnot,
    ?_, ?_⟩
  · intro row; simp [padProbaRow]
  · intro hlt
    simp [probaMismatchWarning, Nat.ne_of_lt hlt]
  · refine ⟨(List.range test_indices.length).map (fun i =>
      [Field.nat rep_no, Field.nat fold_no, Field.nat sample_no, Field.nat i]
      ++ (List.range task.class_labels.length).map
          (fun k => Field.rat
            (((proba_raw.map
                (padProbaRow task.class_labels.length model_classes)).getD i []).getD k 0))
      ++ [Field.str (task.class_labels.getD
            ((pred_y.getD i (Pred.cls 0)).asCls) ""),
          Field.str (task.class_labels.getD
            (((test_y_slice task test_indices).getD i (Pred.cls 0)).asCls) "")]),
      ?_, by simp, ?_⟩
    · simp [encodeFoldRows, hcls]
    · intro i hi
      rw [getD_map_range _ _ hi]
      have hlen4 : ([Field.nat rep_no, Field.nat fold_no, Field.nat sample_no,
          Field.nat i] : List Field).length = 4 := rfl
      rw [List.getD_eq_getElem?_getD,
          List.getElem?_append_left (by simp; omega),
          List.getElem?_append_right (le_of_eq_of_le hlen4 (Nat.le_add_right 4 j)),
          hlen4, Nat.add_sub_cancel_left]
      rw [List.getElem?_map, List.getElem?_range hj]
      simp only [Option.map_some', Option.getD_some, Field.rat.injEq]
      exact padded_matrix_entry model_classes proba_raw i hj hnot

/-- Witness for C7: three known classes, the model reports probabilities
for classes 0 and 1 only; the encoded row carries a zero for class 2 and
the mismatch warning fires. -/
theorem classification_rows_zero_padded_witness :
    let task : Task :=
      { task_id := 1, taskType := TaskType.classification,
        num_repeats := 1, num_folds := 1, num_samples := 1,
        class_labels := ["a", "b", "c"],
        y := fun _ => Pred.cls 2,
        test_indices := fun _ _ _ => [0],
        train_indices := fun _ _ _ => [] }
    (padProbaRow 3 [0, 1] [1/2, 1/2]).getD 2 0 = 0
    ∧ probaMismatchWarning 3 [0, 1] = true
    ∧ ∃ rows, encodeFoldRows task 0 0 0 [0] [Pred.cls 1]
        ([[1/2, 1/2]].map (padProbaRow 3 [0, 1])) = Except.ok rows
        ∧ (rows.getD 0 []).getD (4 + 2) (Field.nat 0) = Field.rat 0 := by
  intro task
  obtain ⟨h1, h2, h3, rows, h4, _, h6⟩ :=
    classification_rows_zero_padded task 0 0 0 [0] [Pred.cls 1] [[1/2, 1/2]]
      [0, 1] rfl 2 (by decide) (by decide)
  exact ⟨h2 [1/2, 1/2], h3 (by decide), rows, h4, h6 0 (by decide)⟩

/-! ## Theorems: reduction of the sweep to a pure fold over its cells -/

theorem foldlM_ok_of_pure {σ α ε : Type} (body : σ → α → Except ε σ)
    (g : σ → α → σ) (h : ∀ st a, body st a = Except.ok (g st a)) :
    ∀ (l : List α) (st : σ), l.foldlM body st = Except.ok (l.foldl g st) := by
  intro l
  induction l with
  | nil => intro st; rfl
  | cons a t ih =>
      intro st
      simp [h, ih, Bind.bind, Except.bind]

theorem foldl_flatMap {α β σ : Type} (l : List α) (g : α → List β)
    (f : σ → β → σ) : ∀ st : σ,
    (l.flatMap g).foldl f st = l.foldl (fun st a => (g a).foldl f st) st := by
  induction l with
  | nil => intro st; rfl
  | cons a t ih =>
      intro st
      simp [List.foldl_append, ih]

theorem foldl_sampleCells {σ : Type} (f : σ → Nat × Nat × Nat → σ)
    (r ff ns : Nat) (st : σ) :
    (sampleCells r ff ns).foldl f st
      = (List.range ns).foldl (fun st s => f st (r, ff, s)) st := by
  rw [sampleCells, List.foldl_map]

theorem foldl_foldCells {σ : Type} (f : σ → Nat × Nat × Nat → σ)
    (r nf ns : Nat) (st : σ) :
    (foldCells r nf ns).foldl f st
      = (List.range nf).foldl (fun st ff =>
          (List.range ns).foldl (fun st s => f st (r, ff, s)) st) st := by
  rw [foldCells, foldl_flatMap]
  simp only [foldl_sampleCells]

theorem foldl_lexCells {σ : Type} (f : σ → Nat × Nat × Nat → σ)
    (nr nf ns : Nat) (st : σ) :
    (lexCells nr nf ns).foldl f st
      = (List.range nr).foldl (fun st r =>
          (List.range nf).foldl (fun st ff =>
            (List.range ns).foldl (fun st s => f st (r, ff, s)) st) st) st := by
  rw [lexCells, foldl_flatMap]
  simp only [foldl_foldCells]

theorem sliceDispatch_recognized (task : Task)
    (hrec : task.taskType.isRecognized = true) (nc : Option Nat) :
    sliceDispatch task nc
      = Except.ok (if task.taskType.isClassificationInstance
                   then some task.class_labels.length else nc) := by
  cases h : task.taskType <;>
    simp_all [TaskType.isRecognized, TaskType.isSupervised,
      TaskType.isClassificationInstance, sliceDispatch]

theorem encodeFoldRows_isOk (task : Task)
    (hrec : task.taskType.isRecognized = true) (r f s : Nat) (ti : List Nat)
    (py : List Pred) (pr : List (List Rat)) :
    encodeFoldRows task r f s ti py pr
      = Except.ok ((encodeFoldRows task r f s ti py pr).toOption.getD []) := by
  rw [encodeFoldRows]
  cases h : task.taskType <;>
    simp_all [TaskType.isRecognized, TaskType.isSupervised,
      TaskType.isClassificationInstance, Except.toOption]

theorem sweepBody_eq_sweepStep {M : Type} (ext : Extension M) (model : M)
    (task : Task) (al : Bool) (hrec : task.taskType.isRecognized = true)
    (st : SweepState M) (r f s : Nat) :
    sweepBody ext model task al st r f s
      = Except.ok (sweepStep ext model task al st (r, f, s)) := by
  have henc := encodeFoldRows_isOk task hrec r f s (task.test_indices r f s)
    (ext.run_model_on_fold model task r f s).pred_y
    (ext.run_model_on_fold model task r f s).proba_y
  rw [sweepBody, sweepStep, sliceDispatch_recognized task hrec]
  dsimp only [Bind.bind, Except.bind]
  rw [henc]
  simp [cellRows, cellTraceRows, cellMeasures, cellFold]

theorem run_task_eq_processCells {M : Type} (ext : Extension M) (model : M)
    (task : Task) (al : Bool) (hrec : task.taskType.isRecognized = true) :
    run_task_get_arffcontent ext model task al
      = (let st := processCells ext model task al
            (lexCells task.num_repeats task.num_folds task.num_samples)
            (initState M)
         if ext.is_hpo_class model then
           match st.model_fold with
           | some m =>
               Except.ok { arff_datacontent := st.arff_datacontent
                           trace := some (m, st.arff_tracecontent)
                           per_fold := st.per_fold
                           per_sample := st.per_sample
                           calls := st.calls }
           | none => Except.error RunError.nameError
         else
           Except.ok { arff_datacontent := st.arff_datacontent
                       trace := none
                       per_fold := st.per_fold
                       per_sample := st.per_sample
                       calls := st.calls }) := by
  have hin : ∀ (r f : Nat) (st : SweepState M),
      (List.range task.num_samples).foldlM
        (fun st s => sweepBody ext model task al st r f s) st
      = Except.ok ((List.range task.num_samples).foldl
          (fun st s => sweepStep ext model task al st (r, f, s)) st) :=
    fun r f st => foldlM_ok_of_pure _ _
      (fun st s => sweepBody_eq_sweepStep ext model task al hrec st r f s) _ st
  have hmid : ∀ (r : Nat) (st : SweepState M),
      (List.range task.num_folds).foldlM
        (fun st f => (List.range task.num_samples).foldlM
          (fun st s => sweepBody ext model task al st r f s) st) st
      = Except.ok ((List.range task.num_folds).foldl
          (fun st f => (List.range task.num_samples).foldl
            (fun st s => sweepStep ext model task al st (r, f, s)) st) st) :=
    fun r st => foldlM_ok_of_pure _ _ (fun st f => hin r f st) _ st
  have hout :
      (List.range task.num_repeats).foldlM
        (fun st r => (List.range task.num_folds).foldlM
          (fun st f => (List.range task.num_samples).foldlM
            (fun st s => sweepBody ext model task al st r f s) st) st)
        (initState M)
      = Except.ok ((List.range task.num_repeats).foldl
          (fun st r => (List.range task.num_folds).foldl
            (fun st f => (List.range task.num_samples).foldl
              (fun st s => sweepStep ext model task al st (r, f, s)) st) st)
          (initState M)) :=
    foldlM_ok_of_pure _ _ (fun st r => hmid r st) _ _
  rw [run_task_get_arffcontent, hout]
  rw [processCells, foldl_lexCells]
  simp [Bind.bind, Except.bind]

/-! ## Theorems: structure of the cell list -/

theorem sampleCells_succ (r f ns : Nat) :
    sampleCells r f (ns + 1) = sampleCells r f ns ++ [(r, f, ns)] := by
  simp [sampleCells, List.range_succ]

theorem foldCells_succ (r nf ns : Nat) :
    foldCells r (nf + 1) ns = foldCells r nf ns ++ sampleCells r nf ns := by
  simp [foldCells, List.range_succ]

theorem lexCells_succ (nr nf ns : Nat) :
    lexCells (nr + 1) nf ns = lexCells nr nf ns ++ foldCells nr nf ns := by
  simp [lexCells, List.range_succ]

theorem mem_sampleCells {c : Nat × Nat × Nat} {r f ns : Nat} :
    c ∈ sampleCells r f ns ↔ c.1 = r ∧ c.2.1 = f ∧ c.2.2 < ns := by
  simp only [sampleCells, List.mem_map, List.mem_range]
  constructor
  · rintro ⟨s, hs, rfl⟩
    exact ⟨rfl, rfl, hs⟩
  · rintro ⟨h1, h2, h3⟩
    exact ⟨c.2.2, h3, by rw [← h1, ← h2]⟩

theorem mem_foldCells {c : Nat × Nat × Nat} {r nf ns : Nat} :
    c ∈ foldCells r nf ns ↔ c.1 = r ∧ c.2.1 < nf ∧ c.2.2 < ns := by
  simp only [foldCells, List.mem_flatMap, mem_sampleCells]
  constructor
  · rintro ⟨f, hf, h1, h2, h3⟩
    exact ⟨h1, h2 ▸ List.mem_range.mp hf, h3⟩
  · rintro ⟨h1, h2, h3⟩
    exact ⟨c.2.1, List.mem_range.mpr h2, h1, rfl, h3⟩

theorem mem_lexCells {c : Nat × Nat × Nat} {nr nf ns : Nat} :
    c ∈ lexCells nr nf ns ↔ c.1 < nr ∧ c.2.1 < nf ∧ c.2.2 < ns := by
  simp only [lexCells, List.mem_flatMap, mem_foldCells]
  constructor
  · rintro ⟨r, hr, h1, h2, h3⟩
    exact ⟨h1 ▸ List.mem_range.mp hr, h2, h3⟩
  · rintro ⟨h1, h2, h3⟩
    exact ⟨c.1, List.mem_range.mpr h1, rfl, h2, h3⟩

/-! ## Theorems: accumulator invariants of the pure sweep -/

theorem processCells_append {M : Type} (ext : Extension M) (model : M)
    (task : Task) (al : Bool) (L₁ L₂ : List (Nat × Nat × Nat))
    (st : SweepState M) :
    processCells ext model task al (L₁ ++ L₂) st
      = processCells ext model task al L₂ (processCells ext model task al L₁ st) := by
  simp [processCells, List.foldl_append]

theorem processCells_calls {M : Type} (ext : Extension M) (model : M)
    (task : Task) (al : Bool) (L : List (Nat × Nat × Nat)) :
    ∀ st : SweepState M,
      (processCells ext model task al L st).calls = st.calls ++ L := by
  induction L with
  | nil => intro st; simp [processCells]
  | cons c t ih =>
      intro st
      show (processCells ext model task al t
        (sweepStep ext model task al st c)).calls = st.calls ++ c :: t
      rw [ih]
      simp [sweepStep]

theorem processCells_data {M : Type} (ext : Extension M) (model : M)
    (task : Task) (al : Bool) (L : List (Nat × Nat × Nat)) :
    ∀ st : SweepState M,
      (processCells ext model task al L st).arff_datacontent
        = st.arff_datacontent ++ L.flatMap (cellRows ext model task) := by
  induction L with
  | nil => intro st; simp [processCells]
  | cons c t ih =>
      intro st
      show (processCells ext model task al t
        (sweepStep ext model task al st c)).arff_datacontent = _
      rw [ih]
      simp [sweepStep]

theorem processCells_tracecontent {M : Type} (ext : Extension M) (model : M)
    (task : Task) (al : Bool) (L : List (Nat × Nat × Nat)) :
    ∀ st : SweepState M,
      (processCells ext model task al L st).arff_tracecontent
        = st.arff_tracecontent ++ L.flatMap (cellTraceRows ext model task) := by
  induction L with
  | nil => intro st; simp [processCells]
  | cons c t ih =>
      intro st
      show (processCells ext model task al t
        (sweepStep ext model task al st c)).arff_tracecontent = _
      rw [ih]
      simp [sweepStep]

theorem processCells_model_fold_last {M : Type} (ext : Extension M) (model : M)
    (task : Task) (al : Bool) (L : List (Nat × Nat × Nat)) (c : Nat × Nat × Nat)
    (st : SweepState M) :
    (processCells ext model task al (L ++ [c]) st).model_fold
      = some (cellFold ext model task c).model_fold := by
  rw [processCells_append]
  rfl

/-! ## Theorems: the evaluation measure maps -/

theorem applyMeasures_fst_ne {R F S r f : Nat} {m : String}
    (h : ¬(r = R ∧ f = F)) (ms : List (String × Rat)) :
    ∀ pf ps, (applyMeasures pf ps R F S ms).1 m r f = pf m r f := by
  induction ms with
  | nil => intro pf ps; rfl
  | cons p t ih =>
      intro pf ps
      show (applyMeasures _ _ R F S t).1 m r f = pf m r f
      rw [ih]
      have hc : ¬(m = p.1 ∧ r = R ∧ f = F) := fun hx => h ⟨hx.2.1, hx.2.2⟩
      simp only [if_neg hc]

theorem applyMeasures_snd_ne {R F S r f s : Nat} {m : String}
    (h : ¬(r = R ∧ f = F ∧ s = S)) (ms : List (String × Rat)) :
    ∀ pf ps, (applyMeasures pf ps R F S ms).2 m r f s = ps m r f s := by
  induction ms with
  | nil => intro pf ps; rfl
  | cons p t ih =>
      intro pf ps
      show (applyMeasures _ _ R F S t).2 m r f s = ps m r f s
      rw [ih]
      have hc : ¬(m = p.1 ∧ r = R ∧ f = F ∧ s = S) :=
        fun hx => h ⟨hx.2.1, hx.2.2.1, hx.2.2.2⟩
      simp only [if_neg hc]

theorem applyMeasures_fst_not_key {R F S r f : Nat} {m : String}
    (ms : List (String × Rat)) (h : ∀ p ∈ ms, p.1 ≠ m) :
    ∀ pf ps, (applyMeasures pf ps R F S ms).1 m r f = pf m r f := by
  induction ms with
  | nil => intro pf ps; rfl
  | cons p t ih =>
      intro pf ps
      show (applyMeasures _ _ R F S t).1 m r f = pf m r f
      rw [ih (fun q hq => h q (List.mem_cons_of_mem p hq))]
      have hc : ¬(m = p.1 ∧ r = R ∧ f = F) :=
        fun hx => h p (List.mem_cons_self p t) hx.1.symm
      simp only [if_neg hc]

theorem applyMeasures_snd_not_key {R F S r f s : Nat} {m : String}
    (ms : List (String × Rat)) (h : ∀ p ∈ ms, p.1 ≠ m) :
    ∀ pf ps, (applyMeasures pf ps R F S ms).2 m r f s = ps m r f s := by
  induction ms with
  | nil => intro pf ps; rfl
  | cons p t ih =>
      intro pf ps
      show (applyMeasures _ _ R F S t).2 m r f s = ps m r f s
      rw [ih (fun q hq => h q (List.mem_cons_of_mem p hq))]
      have hc : ¬(m = p.1 ∧ r = R ∧ f = F ∧ s = S) :=
        fun hx => h p (List.mem_cons_self p t) hx.1.symm
      simp only [if_neg hc]

theorem applyMeasures_fst_lookup {R F S : Nat} {m : String} {v : Rat}
    (ms : List (String × Rat)) (hnd : (ms.map Prod.fst).Nodup)
    (hlk : ms.lookup m = some v) :
    ∀ pf ps, (applyMeasures pf ps R F S ms).1 m R F = some v := by
  induction ms with
  | nil => intro pf ps; simp [List.lookup] at hlk
  | cons p t ih =>
      obtain ⟨pk, pv⟩ := p
      intro pf ps
      rw [List.map_cons] at hnd
      obtain ⟨hpn, hnd2⟩ := List.nodup_cons.mp hnd
      show (applyMeasures _ _ R F S t).1 m R F = some v
      rcases hp : (m == pk) with _ | _
      · have hlk2 : t.lookup m = some v := by
          simpa [List.lookup, hp] using hlk
        exact ih hnd2 hlk2 _ _
      · have hpm : m = pk := by simpa using hp
        have hv : pv = v := by
          simp only [List.lookup, hp] at hlk
          simpa using hlk
        have hnot : ∀ q ∈ t, q.1 ≠ m := by
          intro q hq hqm
          exact hpn (hpm ▸ hqm ▸ List.mem_map.mpr ⟨q, hq, rfl⟩)
        rw [applyMeasures_fst_not_key t hnot]
        simp [hpm, hv]

theorem applyMeasures_snd_lookup {R F S : Nat} {m : String} {v : Rat}
    (ms : List (String × Rat)) (hnd : (ms.map Prod.fst).Nodup)
    (hlk : ms.lookup m = some v) :
    ∀ pf ps, (applyMeasures pf ps R F S ms).2 m R F S = some v := by
  induction ms with
  | nil => intro pf ps; simp [List.lookup] at hlk
  | cons p t ih =>
      obtain ⟨pk, pv⟩ := p
      intro pf ps
      rw [List.map_cons] at hnd
      obtain ⟨hpn, hnd2⟩ := List.nodup_cons.mp hnd
      show (applyMeasures _ _ R F S t).2 m R F S = some v
      rcases hp : (m == pk) with _ | _
      · have hlk2 : t.lookup m = some v := by
          simpa [List.lookup, hp] using hlk
        exact ih hnd2 hlk2 _ _
      · have hpm : m = pk := by simpa using hp
        have hv : pv = v := by
          simp only [List.lookup, hp] at hlk
          simpa using hlk
        have hnot : ∀ q ∈ t, q.1 ≠ m := by
          intro q hq hqm
          exact hpn (hpm ▸ hqm ▸ List.mem_map.mpr ⟨q, hq, rfl⟩)
        rw [applyMeasures_snd_not_key t hnot]
        simp [hpm, hv]

theorem processCells_perFold_untouched {M : Type} (ext : Extension M)
    (model : M) (task : Task) (al : Bool) {m : String} {r f : Nat}
    (L : List (Nat × Nat × Nat)) (h : ∀ c ∈ L, ¬(r = c.1 ∧ f = c.2.1)) :
    ∀ st : SweepState M,
      (processCells ext model task al L st).per_fold m r f
        = st.per_fold m r f := by
  induction L with
  | nil => intro st; rfl
  | cons c t ih =>
      intro st
      show (processCells ext model task al t
        (sweepStep ext model task al st c)).per_fold m r f = _
      rw [ih (fun d hd => h d (List.mem_cons_of_mem c hd))]
      exact applyMeasures_fst_ne (h c (List.mem_cons_self c t)) _ _ _

theorem processCells_perSample_untouched {M : Type} (ext : Extension M)
    (model : M) (task : Task) (al : Bool) {m : String} {r f s : Nat}
    (L : List (Nat × Nat × Nat))
    (h : ∀ c ∈ L, ¬(r = c.1 ∧ f = c.2.1 ∧ s = c.2.2)) :
    ∀ st : SweepState M,
      (processCells ext model task al L st).per_sample m r f s
        = st.per_sample m r f s := by
  induction L with
  | nil => intro st; rfl
  | cons c t ih =>
      intro st
      show (processCells ext model task al t
        (sweepStep ext model task al st c)).per_sample m r f s = _
      rw [ih (fun d hd => h d (List.mem_cons_of_mem c hd))]
      exact applyMeasures_snd_ne (h c (List.mem_cons_self c t)) _ _ _

theorem processCells_sample_perFold {M : Type} {ext : Extension M} {model : M}
    {task : Task} {al : Bool} {m : String} {v : Nat → Nat → Nat → Rat}
    (HM : MeasureAt ext model task al m v) {r f ns : Nat} (hns : 0 < ns) :
    ∀ st : SweepState M,
      (processCells ext model task al (sampleCells r f ns) st).per_fold m r f
        = some (v r f (ns - 1)) := by
  obtain ⟨j, rfl⟩ : ∃ j, ns = j + 1 :=
    ⟨ns - 1, (Nat.succ_pred_eq_of_pos hns).symm⟩
  intro st
  rw [sampleCells_succ, processCells_append]
  show (sweepStep ext model task al
    (processCells ext model task al (sampleCells r f j) st) (r, f, j)).per_fold
      m r f = _
  simp only [Nat.add_sub_cancel]
  exact applyMeasures_fst_lookup _ (HM r f j).1 (HM r f j).2 _ _

theorem processCells_fold_perFold {M : Type} {ext : Extension M} {model : M}
    {task : Task} {al : Bool} {m : String} {v : Nat → Nat → Nat → Rat}
    (HM : MeasureAt ext model task al m v) {r f ns : Nat} (hns : 0 < ns) :
    ∀ nf : Nat, f < nf → ∀ st : SweepState M,
      (processCells ext model task al (foldCells r nf ns) st).per_fold m r f
        = some (v r f (ns - 1)) := by
  intro nf
  induction nf with
  | zero => intro hf; exact absurd hf (Nat.not_lt_zero f)
  | succ k ih =>
      intro hf st
      rw [foldCells_succ, processCells_append]
      rcases Nat.lt_or_ge f k with hfk | hfk
      · have hunt : ∀ c ∈ sampleCells r k ns, ¬(r = c.1 ∧ f = c.2.1) := by
          intro c hc hcon
          obtain ⟨h1, h2, h3⟩ := mem_sampleCells.mp hc
          omega
        rw [processCells_perFold_untouched ext model task al _ hunt]
        exact ih hfk st
      · have hfe : f = k := by omega
        subst hfe
        exact processCells_sample_perFold HM hns _

theorem processCells_lex_perFold {M : Type} {ext : Extension M} {model : M}
    {task : Task} {al : Bool} {m : String} {v : Nat → Nat → Nat → Rat}
    (HM : MeasureAt ext model task al m v) {r f nf ns : Nat}
    (hf : f < nf) (hns : 0 < ns) :
    ∀ nr : Nat, r < nr → ∀ st : SweepState M,
      (processCells ext model task al (lexCells nr nf ns) st).per_fold m r f
        = some (v r f (ns - 1)) := by
  intro nr
  induction nr with
  | zero => intro hr; exact absurd hr (Nat.not_lt_zero r)
  | succ k ih =>
      intro hr st
      rw [lexCells_succ, processCells_append]
      rcases Nat.lt_or_ge r k with hrk | hrk
      · have hunt : ∀ c ∈ foldCells k nf ns, ¬(r = c.1 ∧ f = c.2.1) := by
          intro c hc hcon
          obtain ⟨h1, h2, h3⟩ := mem_foldCells.mp hc
          omega
        rw [processCells_perFold_untouched ext model task al _ hunt]
        exact ih hrk st
      · have hre : r = k := by omega
        subst hre
        exact processCells_fold_perFold HM hns nf hf _

theorem processCells_sample_perSample {M : Type} {ext : Extension M}
    {model : M} {task : Task} {al : Bool} {m : String}
    {v : Nat → Nat → Nat → Rat} (HM : MeasureAt ext model task al m v)
    {r f s : Nat} :
    ∀ ns : Nat, s < ns → ∀ st : SweepState M,
      (processCells ext model task al (sampleCells r f ns) st).per_sample
        m r f s = some (v r f s) := by
  intro ns
  induction ns with
  | zero => intro hs; exact absurd hs (Nat.not_lt_zero s)
  | succ j ih =>
      intro hs st
      rw [sampleCells_succ, processCells_append]
      show (sweepStep ext model task al
        (processCells ext model task al (sampleCells r f j) st)
        (r, f, j)).per_sample m r f s = _
      rcases Nat.lt_or_ge s j with hsj | hsj
      · have hne : ¬(r = (r, f, j).1 ∧ f = (r, f, j).2.1 ∧ s = (r, f, j).2.2) := by
          simp only []
          omega
        rw [show (sweepStep ext model task al
            (processCells ext model task al (sampleCells r f j) st)
            (r, f, j)).per_sample m r f s
          = (processCells ext model task al (sampleCells r f j) st).per_sample
              m r f s from applyMeasures_snd_ne hne _ _ _]
        exact ih hsj st
      · have hse : s = j := by omega
        subst hse
        exact applyMeasures_snd_lookup _ (HM r f s).1 (HM r f s).2 _ _

theorem processCells_fold_perSample {M : Type} {ext : Extension M} {model : M}
    {task : Task} {al : Bool} {m : String} {v : Nat → Nat → Nat → Rat}
    (HM : MeasureAt ext model task al m v) {r f s ns : Nat} (hs : s < ns) :
    ∀ nf : Nat, f < nf → ∀ st : SweepState M,
      (processCells ext model task al (foldCells r nf ns) st).per_sample
        m r f s = some (v r f s) := by
  intro nf
  induction nf with
  | zero => intro hf; exact absurd hf (Nat.not_lt_zero f)
  | succ k ih =>
      intro hf st
      rw [foldCells_succ, processCells_append]
      rcases Nat.lt_or_ge f k with hfk | hfk
      · have hunt : ∀ c ∈ sampleCells r k ns,
            ¬(r = c.1 ∧ f = c.2.1 ∧ s = c.2.2) := by
          intro c hc hcon
          obtain ⟨h1, h2, h3⟩ := mem_sampleCells.mp hc
          omega
        rw [processCells_perSample_untouched ext model task al _ hunt]
        exact ih hfk st
      · have hfe : f = k := by omega
        subst hfe
        exact processCells_sample_perSample HM ns hs _

theorem processCells_lex_perSample {M : Type} {ext : Extension M} {model : M}
    {task : Task} {al : Bool} {m : String} {v : Nat → Nat → Nat → Rat}
    (HM : MeasureAt ext model task al m v) {r f s nf ns : Nat}
    (hf : f < nf) (hs : s < ns) :
    ∀ nr : Nat, r < nr → ∀ st : SweepState M,
      (processCells ext model task al (lexCells nr nf ns) st).per_sample
        m r f s = some (v r f s) := by
  intro nr
  induction nr with
  | zero => intro hr; exact absurd hr (Nat.not_lt_zero r)
  | succ k ih =>
      intro hr st
      rw [lexCells_succ, processCells_append]
      rcases Nat.lt_or_ge r k with hrk | hrk
      · have hunt : ∀ c ∈ foldCells k nf ns,
            ¬(r = c.1 ∧ f = c.2.1 ∧ s = c.2.2) := by
          intro c hc hcon
          obtain ⟨h1, h2, h3⟩ := mem_foldCells.mp hc
          omega
        rw [processCells_perSample_untouched ext model task al _ hunt]
        exact ih hrk st
      · have hre : r = k := by omega
        subst hre
        exact processCells_fold_perSample HM hs nf hf _

theorem processCells_perSample_beyond {M : Type} (ext : Extension M)
    (model : M) (task : Task) (al : Bool) {m : String} {r f s : Nat}
    {nr nf ns : Nat} (hs : ns ≤ s) :
    (processCells ext model task al (lexCells nr nf ns)
      (initState M)).per_sample m r f s = none := by
  have hunt : ∀ c ∈ lexCells nr nf ns,
      ¬(r = c.1 ∧ f = c.2.1 ∧ s = c.2.2) := by
    intro c hc hcon
    obtain ⟨h1, h2, h3⟩ := mem_lexCells.mp hc
    omega
  rw [processCells_perSample_untouched ext model task al _ hunt]
  rfl

theorem lexCells_concat {nr nf ns : Nat} (h1 : 0 < nr) (h2 : 0 < nf)
    (h3 : 0 < ns) :
    ∃ L, lexCells nr nf ns = L ++ [(nr - 1, nf - 1, ns - 1)] := by
  obtain ⟨a, rfl⟩ : ∃ a, nr = a + 1 := ⟨nr - 1, (Nat.succ_pred_eq_of_pos h1).symm⟩
  obtain ⟨b, rfl⟩ : ∃ b, nf = b + 1 := ⟨nf - 1, (Nat.succ_pred_eq_of_pos h2).symm⟩
  obtain ⟨c, rfl⟩ : ∃ c, ns = c + 1 := ⟨ns - 1, (Nat.succ_pred_eq_of_pos h3).symm⟩
  refine ⟨lexCells a (b + 1) (c + 1) ++ (foldCells a b (c + 1)
    ++ sampleCells a b c), ?_⟩
  rw [lexCells_succ, foldCells_succ, sampleCells_succ]
  simp [Nat.add_sub_cancel, List.append_assoc]

theorem processCells_lex_model_fold {M : Type} (ext : Extension M) (model : M)
    (task : Task) (al : Bool) {nr nf ns : Nat} (h1 : 0 < nr) (h2 : 0 < nf)
    (h3 : 0 < ns) :
    (processCells ext model task al (lexCells nr nf ns)
        (initState M)).model_fold
      = some (cellFold ext model task (nr - 1, nf - 1, ns - 1)).model_fold := by
  obtain ⟨L, hL⟩ := lexCells_concat h1 h2 h3
  rw [hL]
  exact processCells_model_fold_last ext model task al L _ _

/-- The success form of the sweep for a recognized task with at least one
cell: the result fields are the pure sweep's accumulators and the trace is
built from the final cell's fitted model when the model is a
hyperparameter-search class. -/
theorem run_task_ok {M : Type} (ext : Extension M) (model : M) (task : Task)
    (al : Bool) (hrec : task.taskType.isRecognized = true)
    (h1 : 0 < task.num_repeats) (h2 : 0 < task.num_folds)
    (h3 : 0 < task.num_samples) :
    run_task_get_arffcontent ext model task al = Except.ok
      { arff_datacontent := (processCells ext model task al
          (lexCells task.num_repeats task.num_folds task.num_samples)
          (initState M)).arff_datacontent
        trace := if ext.is_hpo_class model then
            some ((cellFold ext model task (task.num_repeats - 1,
                task.num_folds - 1, task.num_samples - 1)).model_fold,
              (processCells ext model task al
                (lexCells task.num_repeats task.num_folds task.num_samples)
                (initState M)).arff_tracecontent)
          else none
        per_fold := (processCells ext model task al
          (lexCells task.num_repeats task.num_folds task.num_samples)
          (initState M)).per_fold
        per_sample := (processCells ext model task al
          (lexCells task.num_repeats task.num_folds task.num_samples)
          (initState M)).per_sample
        calls := (processCells ext model task al
          (lexCells task.num_repeats task.num_folds task.num_samples)
          (initState M)).calls } := by
  rw [run_task_eq_processCells ext model task al hrec]
  have hmf := processCells_lex_model_fold ext model task al h1 h2 h3
  cases hhpo : ext.is_hpo_class model with
  | false => simp [hhpo]
  | true => simp [hhpo, hmf]

/-- C3: after a complete sweep, for every measure produced at each cell,
the per-fold evaluation map entry at (measure, repeat, fold) equals the
per-sample entry at the largest sample index (the last sample swept in
that fold); per-sample entries exist exactly for the swept sample indices. -/
theorem per_fold_equals_last_sample {M : Type} (ext : Extension M) (model : M)
    (task : Task) (al : Bool) (m : String) (v : Nat → Nat → Nat → Rat)
    (hrec : task.taskType.isRecognized = true)
    (HM : MeasureAt ext model task al m v) (r f : Nat)
    (hr : r < task.num_repeats) (hf : f < task.num_folds)
    (hns : 0 < task.num_samples) :
    ∃ res, run_task_get_arffcontent ext model task al = Except.ok res
      ∧ res.per_fold m r f = res.per_sample m r f (task.num_samples - 1)
      ∧ res.per_fold m r f = some (v r f (task.num_samples - 1))
      ∧ (∀ s, s < task.num_samples → res.per_sample m r f s = some (v r f s))
      ∧ (∀ s, task.num_samples ≤ s → res.per_sample m r f s = none) := by
  have h1 : 0 < task.num_repeats := Nat.lt_of_le_of_lt (Nat.zero_le r) hr
  have h2 : 0 < task.num_folds := Nat.lt_of_le_of_lt (Nat.zero_le f) hf
  refine ⟨_, run_task_ok ext model task al hrec h1 h2 hns, ?_, ?_, ?_, ?_⟩
  · show (processCells ext model task al _ (initState M)).per_fold m r f
      = (processCells ext model task al _ (initState M)).per_sample m r f _
    rw [processCells_lex_perFold HM hf hns task.num_repeats hr,
        processCells_lex_perSample HM hf (Nat.sub_lt hns Nat.one_pos)
          task.num_repeats hr]
  · exact processCells_lex_perFold HM hf hns task.num_repeats hr _
  · intro s hs
    exact processCells_lex_perSample HM hf hs task.num_repeats hr _
  · intro s hs
    exact processCells_perSample_beyond ext model task al hs

/-- Witness for C3: a learning-curve task with three samples per fold
(sizes 10/50/100 → sample indices 0/1/2) whose measure value at sample `s`
is `s`; after the sweep the per-fold entry holds the sample-2 value, not
the sample-0 or sample-1 value. -/
theorem per_fold_equals_last_sample_witness :
    let task : Task :=
      { task_id := 1, taskType := TaskType.learningCurve,
        num_repeats := 1, num_folds := 1, num_samples := 3,
        class_labels := ["a", "b"],
        y := fun _ => Pred.cls 0,
        test_indices := fun _ _ _ => [0],
        train_indices := fun _ _ _ => [] }
    let ext : Extension Nat :=
      { run_model_on_fold := fun _ _ _ _ s =>
          { pred_y := [Pred.cls 0], proba_y := [[1, 0]],
            measures := [("m", (s : Rat))], model_fold := 0 }
        is_hpo_class := fun _ => false
        extract_trace_data := fun _ _ _ => [] }
    ∃ res, run_task_get_arffcontent ext 0 task false = Except.ok res
      ∧ res.per_fold "m" 0 0 = some 2
      ∧ res.per_sample "m" 0 0 0 = some 0
      ∧ res.per_sample "m" 0 0 1 = some 1
      ∧ res.per_sample "m" 0 0 2 = some 2
      ∧ res.per_sample "m" 0 0 3 = none := by
  intro task ext
  have HM : MeasureAt ext 0 task false "m" (fun _ _ s => (s : Rat)) := by
    intro r f s
    constructor
    · simp [cellMeasures, cellFold, localMeasures, task, ext,
        TaskType.isClassificationInstance]
    · simp [cellMeasures, cellFold, localMeasures, task, ext,
        TaskType.isClassificationInstance, List.lookup]
  obtain ⟨res, hok, hpfe, hpf, hps, hnone⟩ :=
    per_fold_equals_last_sample ext 0 task false "m" (fun _ _ s => (s : Rat))
      (by decide) HM 0 0 (by decide) (by decide) (by decide)
  refine ⟨res, hok, ?_, ?_, ?_, ?_, ?_⟩
  · simpa [task] using hpf
  · simpa using hps 0 (by decide)
  · simpa using hps 1 (by decide)
  · simpa using hps 2 (by decide)
  · exact hnone 3 (by decide)

/-! ## Theorems: iteration order of the sweep -/

theorem pairwise_sampleCells (r f ns : Nat) :
    (sampleCells r f ns).Pairwise cellLt := by
  rw [sampleCells, List.pairwise_map]
  exact (List.pairwise_lt_range ns).imp
    (fun h => Or.inr ⟨rfl, Or.inr ⟨rfl, h⟩⟩)

theorem pairwise_foldCells (r nf ns : Nat) :
    (foldCells r nf ns).Pairwise cellLt := by
  induction nf with
  | zero => simp [foldCells]
  | succ k ih =>
      rw [foldCells_succ, List.pairwise_append]
      refine ⟨ih, pairwise_sampleCells r k ns, ?_⟩
      intro a ha b hb
      obtain ⟨ha1, ha2, _⟩ := mem_foldCells.mp ha
      obtain ⟨hb1, hb2, _⟩ := mem_sampleCells.mp hb
      exact Or.inr ⟨ha1.trans hb1.symm, Or.inl (by omega)⟩

theorem pairwise_lexCells (nr nf ns : Nat) :
    (lexCells nr nf ns).Pairwise cellLt := by
  induction nr with
  | zero => simp [lexCells]
  | succ k ih =>
      rw [lexCells_succ, List.pairwise_append]
      refine ⟨ih, pairwise_foldCells k nf ns, ?_⟩
      intro a ha b hb
      obtain ⟨ha1, _, _⟩ := mem_lexCells.mp ha
      obtain ⟨hb1, _, _⟩ := mem_foldCells.mp hb
      exact Or.inl (by omega)

theorem count_eq_one_of_nodup_mem {α : Type} [BEq α] [LawfulBEq α]
    {l : List α} {a : α} (h : l.Nodup) (ha : a ∈ l) : l.count a = 1 := by
  induction l with
  | nil => simp at ha
  | cons b t ih =>
      rw [List.count_cons]
      rcases List.mem_cons.mp ha with rfl | hat
      · have hna : a ∉ t := (List.nodup_cons.mp h).1
        rw [List.count_eq_zero.mpr hna]
        simp
      · have hb : (b == a) = false := by
          refine beq_eq_false_iff_ne.mpr ?_
          rintro rfl
          exact (List.nodup_cons.mp h).1 hat
        rw [ih (List.nodup_cons.mp h).2 hat]
        simp [hb]

theorem cellLt_ne {a b : Nat × Nat × Nat} (h : cellLt a b) : a ≠ b := by
  rintro rfl
  rcases h with h | ⟨_, h | ⟨_, h⟩⟩ <;> exact absurd h (lt_irrefl _)

theorem nodup_lexCells (nr nf ns : Nat) : (lexCells nr nf ns).Nodup :=
  (pairwise_lexCells nr nf ns).imp cellLt_ne

/-- C1: for a recognized task the sweep visits exactly the cross product
repeat × fold × sample, invoking the fold executor once per cell, in
lexicographic order with repeat outermost, fold middle, sample
innermost. -/
theorem sweep_full_cross_product {M : Type} (ext : Extension M) (model : M)
    (task : Task) (al : Bool) (hrec : task.taskType.isRecognized = true)
    (h1 : 0 < task.num_repeats) (h2 : 0 < task.num_folds)
    (h3 : 0 < task.num_samples) :
    ∃ res, run_task_get_arffcontent ext model task al = Except.ok res
      ∧ res.calls = lexCells task.num_repeats task.num_folds task.num_samples
      ∧ (∀ c : Nat × Nat × Nat, c ∈ res.calls ↔
          c.1 < task.num_repeats ∧ c.2.1 < task.num_folds
            ∧ c.2.2 < task.num_samples)
      ∧ (∀ r f s, r < task.num_repeats → f < task.num_folds →
          s < task.num_samples → res.calls.count (r, f, s) = 1)
      ∧ res.calls.Pairwise cellLt := by
  have hcalls : (processCells ext model task al
      (lexCells task.num_repeats task.num_folds task.num_samples)
      (initState M)).calls
      = lexCells task.num_repeats task.num_folds task.num_samples := by
    rw [processCells_calls]
    rfl
  refine ⟨_, run_task_ok ext model task al hrec h1 h2 h3, ?_, ?_, ?_, ?_⟩
  · exact hcalls
  · intro c
    show c ∈ (processCells ext model task al _ (initState M)).calls ↔ _
    rw [hcalls]
    exact mem_lexCells
  · intro r f s hr hf hs
    show ((processCells ext model task al _ (initState M)).calls).count _ = 1
    rw [hcalls]
    exact count_eq_one_of_nodup_mem (nodup_lexCells _ _ _)
      ((@mem_lexCells (r, f, s) task.num_repeats task.num_folds
        task.num_samples).mpr ⟨hr, hf, hs⟩)
  · show ((processCells ext model task al _ (initState M)).calls).Pairwise _
    rw [hcalls]
    exact pairwise_lexCells _ _ _

/-- Witness for C1: a 2-repeat, 2-fold, 1-sample classification task is
swept in the order (0,0,0), (0,1,0), (1,0,0), (1,1,0), each cell once. -/
theorem sweep_full_cross_product_witness :
    let task : Task :=
      { task_id := 1, taskType := TaskType.classification,
        num_repeats := 2, num_folds := 2, num_samples := 1,
        class_labels := ["a", "b"],
        y := fun _ => Pred.cls 0,
        test_indices := fun _ _ _ => [0],
        train_indices := fun _ _ _ => [] }
    let ext : Extension Nat :=
      { run_model_on_fold := fun _ _ _ _ _ =>
          { pred_y := [Pred.cls 0], proba_y := [[1, 0]],
            measures := [], model_fold := 0 }
        is_hpo_class := fun _ => false
        extract_trace_data := fun _ _ _ => [] }
    ∃ res, run_task_get_arffcontent ext 0 task false = Except.ok res
      ∧ res.calls = [(0, 0, 0), (0, 1, 0), (1, 0, 0), (1, 1, 0)]
      ∧ res.calls.count (0, 1, 0) = 1 := by
  intro task ext
  obtain ⟨res, hok, hcalls, _, hcount, _⟩ :=
    sweep_full_cross_product ext 0 task false (by decide) (by decide)
      (by decide) (by decide)
  refine ⟨res, hok, ?_, hcount 0 1 0 (by decide) (by decide) (by decide)⟩
  rw [hcalls]
  decide

/-! ## Theorems: the optimization trace -/

/-- C6: when the model is a hyperparameter-search wrapper, the trace the
sweep returns is built from exactly two ingredients — the fitted model
state of the final cell of the sweep (the last (repeat, fold, sample) in
iteration order) and the trace rows extracted per cell during the sweep,
in sweep order; when the model is not a hyperparameter-search wrapper, the
returned trace is `None`. -/
theorem trace_built_from_last_fitted_model {M : Type} (ext : Extension M)
    (model : M) (task : Task) (al : Bool)
    (hrec : task.taskType.isRecognized = true)
    (h1 : 0 < task.num_repeats) (h2 : 0 < task.num_folds)
    (h3 : 0 < task.num_samples) :
    ∃ res, run_task_get_arffcontent ext model task al = Except.ok res
      ∧ (ext.is_hpo_class model = true →
          res.trace = some
            ((cellFold ext model task (task.num_repeats - 1,
                task.num_folds - 1, task.num_samples - 1)).model_fold,
             (lexCells task.num_repeats task.num_folds
                task.num_samples).flatMap (cellTraceRows ext model task)))
      ∧ (ext.is_hpo_class model = false → res.trace = none) := by
  have htr : (processCells ext model task al
      (lexCells task.num_repeats task.num_folds task.num_samples)
      (initState M)).arff_tracecontent
      = (lexCells task.num_repeats task.num_folds task.num_samples).flatMap
          (cellTraceRows ext model task) := by
    rw [processCells_tracecontent]
    rfl
  refine ⟨_, run_task_ok ext model task al hrec h1 h2 h3, ?_, ?_⟩
  · intro hhpo
    show (if ext.is_hpo_class model then _ else none) = _
    rw [hhpo, if_pos rfl, htr]
  · intro hhpo
    show (if ext.is_hpo_class model then _ else none) = _
    rw [hhpo]
    simp

/-- Witness for C6: a hyperparameter-search model on a 1×2×1 sweep; the
trace pairs the fitted model of the final cell (repeat 0, fold 1) with the
two extracted trace rows in sweep order. -/
theorem trace_built_from_last_fitted_model_witness :
    let task : Task :=
      { task_id := 1, taskType := TaskType.classification,
        num_repeats := 1, num_folds := 2, num_samples := 1,
        class_labels := ["a", "b"],
        y := fun _ => Pred.cls 0,
        test_indices := fun _ _ _ => [0],
        train_indices := fun _ _ _ => [] }
    let ext : Extension Nat :=
      { run_model_on_fold := fun _ _ r f _ =>
          { pred_y := [Pred.cls 0], proba_y := [[1, 0]],
            measures := [], model_fold := 10 * r + f + 1 }
        is_hpo_class := fun _ => true
        extract_trace_data := fun m r f => [[Field.nat m, Field.nat r, Field.nat f]]
      }
    ∃ res, run_task_get_arffcontent ext 0 task false = Except.ok res
      ∧ res.trace = some (2, [[Field.nat 1, Field.nat 0, Field.nat 0],
                              [Field.nat 2, Field.nat 0, Field.nat 1]]) := by
  intro task ext
  obtain ⟨res, hok, hhpo, _⟩ :=
    trace_built_from_last_fitted_model ext 0 task false (by decide) (by decide)
      (by decide) (by decide)
  refine ⟨res, hok, ?_⟩
  rw [hhpo rfl]
  decide

/-! ## Theorems: prediction-row encoding and table order -/

theorem cellRows_classification {M : Type} (ext : Extension M) (model : M)
    (task : Task) (hcls : task.taskType.isClassificationInstance = true)
    (c : Nat × Nat × Nat) :
    cellRows ext model task c
      = (List.range (task.test_indices c.1 c.2.1 c.2.2).length).map (fun i =>
          [Field.nat c.1, Field.nat c.2.1, Field.nat c.2.2, Field.nat i]
          ++ (List.range task.class_labels.length).map (fun j =>
              Field.rat
                (((cellFold ext model task c).proba_y.getD i []).getD j 0))
          ++ [Field.str (task.class_labels.getD
                (((cellFold ext model task c).pred_y.getD i
                    (Pred.cls 0)).asCls) ""),
              Field.str (task.class_labels.getD
                (((test_y_slice task
                    (task.test_indices c.1 c.2.1 c.2.2)).getD i
                    (Pred.cls 0)).asCls) "")]) := by
  simp [cellRows, encodeFoldRows, hcls, Except.toOption, cellFold]

theorem cellRows_regression {M : Type} (ext : Extension M) (model : M)
    (task : Task) (hreg : task.taskType = TaskType.regression)
    (c : Nat × Nat × Nat) :
    cellRows ext model task c
      = (List.range (task.test_indices c.1 c.2.1 c.2.2).length).map (fun i =>
          [Field.nat c.1, Field.nat c.2.1,
           Field.nat ((task.test_indices c.1 c.2.1 c.2.2).getD i 0),
           ((cellFold ext model task c).pred_y.getD i (Pred.val 0)).toField,
           ((test_y_slice task (task.test_indices c.1 c.2.1 c.2.2)).getD i
              (Pred.val 0)).toField]) := by
  simp [cellRows, encodeFoldRows, hreg, TaskType.isClassificationInstance,
    Except.toOption, cellFold]

theorem cellRows_clustering {M : Type} (ext : Extension M) (model : M)
    (task : Task) (hclu : task.taskType = TaskType.clustering)
    (c : Nat × Nat × Nat) :
    cellRows ext model task c
      = (List.range (task.test_indices c.1 c.2.1 c.2.2).length).map (fun i =>
          [Field.nat ((task.test_indices c.1 c.2.1 c.2.2).getD i 0),
           ((cellFold ext model task c).pred_y.getD i (Pred.cls 0)).toField]) := by
  simp [cellRows, encodeFoldRows, hclu, TaskType.isClassificationInstance,
    Except.toOption, cellFold]

/-- C2: the prediction table is the concatenation, in sweep order, of each
cell's rows, one row per test instance; classification/learning-curve rows
are [repeat, fold, sample, within-fold index, one probability per known
class label, predicted label string, true label string]; regression rows
are [repeat, fold, global row id, prediction, truth]; clustering rows are
[global row id, cluster id]. -/
theorem prediction_row_encoding {M : Type} (ext : Extension M) (model : M)
    (task : Task) (al : Bool) (hrec : task.taskType.isRecognized = true)
    (h1 : 0 < task.num_repeats) (h2 : 0 < task.num_folds)
    (h3 : 0 < task.num_samples) :
    ∃ res, run_task_get_arffcontent ext model task al = Except.ok res
      ∧ res.arff_datacontent
          = (lexCells task.num_repeats task.num_folds
              task.num_samples).flatMap (cellRows ext model task)
      ∧ (task.taskType.isClassificationInstance = true →
          ∀ c, cellRows ext model task c
            = (List.range (task.test_indices c.1 c.2.1 c.2.2).length).map
                (fun i =>
                  [Field.nat c.1, Field.nat c.2.1, Field.nat c.2.2,
                   Field.nat i]
                  ++ (List.range task.class_labels.length).map (fun j =>
                      Field.rat (((cellFold ext model task c).proba_y.getD
                        i []).getD j 0))
                  ++ [Field.str (task.class_labels.getD
                        (((cellFold ext model task c).pred_y.getD i
                            (Pred.cls 0)).asCls) ""),
                      Field.str (task.class_labels.getD
                        (((test_y_slice task
                            (task.test_indices c.1 c.2.1 c.2.2)).getD i
                            (Pred.cls 0)).asCls) "")]))
      ∧ (task.taskType = TaskType.regression →
          ∀ c, cellRows ext model task c
            = (List.range (task.test_indices c.1 c.2.1 c.2.2).length).map
                (fun i =>
                  [Field.nat c.1, Field.nat c.2.1,
                   Field.nat ((task.test_indices c.1 c.2.1 c.2.2).getD i 0),
                   ((cellFold ext model task c).pred_y.getD i
                      (Pred.val 0)).toField,
                   ((test_y_slice task
                      (task.test_indices c.1 c.2.1 c.2.2)).getD i
                      (Pred.val 0)).toField]))
      ∧ (task.taskType = TaskType.clustering →
          ∀ c, cellRows ext model task c
            = (List.range (task.test_indices c.1 c.2.1 c.2.2).length).map
                (fun i =>
                  [Field.nat ((task.test_indices c.1 c.2.1 c.2.2).getD i 0),
                   ((cellFold ext model task c).pred_y.getD i
                      (Pred.cls 0)).toField]))
      ∧ (∀ c, (cellRows ext model task c).length
          = (task.test_indices c.1 c.2.1 c.2.2).length) := by
  have hdata : (processCells ext model task al
      (lexCells task.num_repeats task.num_folds task.num_samples)
      (initState M)).arff_datacontent
      = (lexCells task.num_repeats task.num_folds task.num_samples).flatMap
          (cellRows ext model task) := by
    rw [processCells_data]
    rfl
  refine ⟨_, run_task_ok ext model task al hrec h1 h2 h3, hdata,
    fun hcls c => cellRows_classification ext model task hcls c,
    fun hreg c => cellRows_regression ext model task hreg c,
    fun hclu c => cellRows_clustering ext model task hclu c, ?_⟩
  intro c
  cases htt : task.taskType with
  | classification =>
      rw [cellRows_classification ext model task (by rw [htt]; rfl) c]
      simp
  | learningCurve =>
      rw [cellRows_classification ext model task (by rw [htt]; rfl) c]
      simp
  | regression =>
      rw [cellRows_regression ext model task htt c]
      simp
  | clustering =>
      rw [cellRows_clustering ext model task htt c]
      simp
  | subgroupDiscovery =>
      rw [TaskType.isRecognized, htt] at hrec
      simp [TaskType.isSupervised] at hrec
  | other s =>
      rw [TaskType.isRecognized, htt] at hrec
      simp [TaskType.isSupervised] at hrec

/-- Witness for C2: a 1×1×1 classification sweep over test instances with
global row ids 3 and 4; the table holds one row per test instance with
probabilities, predicted label and true label in order. -/
theorem prediction_row_encoding_witness :
    let task : Task :=
      { task_id := 1, taskType := TaskType.classification,
        num_repeats := 1, num_folds := 1, num_samples := 1,
        class_labels := ["a", "b"],
        y := fun i => if i = 3 then Pred.cls 1 else Pred.cls 0,
        test_indices := fun _ _ _ => [3, 4],
        train_indices := fun _ _ _ => [] }
    let ext : Extension Nat :=
      { run_model_on_fold := fun _ _ _ _ _ =>
          { pred_y := [Pred.cls 1, Pred.cls 0],
            proba_y := [[1, 0], [0, 1]],
            measures := [], model_fold := 0 }
        is_hpo_class := fun _ => false
        extract_trace_data := fun _ _ _ => [] }
    ∃ res, run_task_get_arffcontent ext 0 task false = Except.ok res
      ∧ res.arff_datacontent =
          [[Field.nat 0, Field.nat 0, Field.nat 0, Field.nat 0,
            Field.rat 1, Field.rat 0, Field.str "b", Field.str "b"],
           [Field.nat 0, Field.nat 0, Field.nat 0, Field.nat 1,
            Field.rat 0, Field.rat 1, Field.str "a", Field.str "a"]] := by
  intro task ext
  obtain ⟨res, hok, hdata, _, _, _, _⟩ :=
    prediction_row_encoding ext 0 task false (by decide) (by decide)
      (by decide) (by decide)
  refine ⟨res, hok, ?_⟩
  rw [hdata]
  decide

/-! ## Theorems: unrecognized task types -/

theorem foldlM_error_head {σ α ε : Type} (body : σ → α → Except ε σ)
    (a : α) (l : List α) (st : σ) (e : ε) (h : body st a = Except.error e) :
    (a :: l).foldlM body st = Except.error e := by
  simp [h, Bind.bind, Except.bind]

theorem sliceDispatch_unrecognized (task : Task)
    (hsup : task.taskType.isSupervised = false)
    (hclu : task.taskType ≠ TaskType.clustering) (nc : Option Nat) :
    sliceDispatch task nc = Except.error RunError.notImplementedTaskType := by
  simp [sliceDispatch, hsup, hclu]

theorem sweepBody_unrecognized {M : Type} (ext : Extension M) (model : M)
    (task : Task) (al : Bool) (hsup : task.taskType.isSupervised = false)
    (hclu : task.taskType ≠ TaskType.clustering) (st : SweepState M)
    (r f s : Nat) :
    sweepBody ext model task al st r f s
      = Except.error RunError.notImplementedTaskType := by
  rw [sweepBody]
  simp [sliceDispatch_unrecognized task hsup hclu, Bind.bind, Except.bind]

theorem encodeFoldRows_unrecognized (task : Task)
    (hsup : task.taskType.isSupervised = false)
    (hclu : task.taskType ≠ TaskType.clustering) (r f s : Nat)
    (ti : List Nat) (py : List Pred) (pr : List (List Rat)) :
    encodeFoldRows task r f s ti py pr
      = Except.error RunError.typeErrorTaskType := by
  cases h : task.taskType <;>
    simp_all [encodeFoldRows, TaskType.isSupervised,
      TaskType.isClassificationInstance]

/-- C8: a task whose kind is none of classification, learning-curve,
regression or clustering makes the sweep's slicing dispatch fail
(`NotImplementedError`, surfaced unchanged by the sweep) and makes the row
encoder fail (`TypeError`); the spec groups both conditions as a fatal
`UnsupportedTaskType`. -/
theorem unsupported_task_type_fails {M : Type} (ext : Extension M) (model : M)
    (task : Task) (al : Bool) (hsup : task.taskType.isSupervised = false)
    (hclu : task.taskType ≠ TaskType.clustering)
    (h1 : 0 < task.num_repeats) (h2 : 0 < task.num_folds)
    (h3 : 0 < task.num_samples) :
    (run_task_get_arffcontent ext model task al
        = Except.error RunError.notImplementedTaskType
      ∧ RunError.notImplementedTaskType.isUnsupportedTaskType = true)
    ∧ (∀ (r f s : Nat) (ti : List Nat) (py : List Pred) (pr : List (List Rat)),
        encodeFoldRows task r f s ti py pr
          = Except.error RunError.typeErrorTaskType
        ∧ RunError.typeErrorTaskType.isUnsupportedTaskType = true) := by
  refine ⟨⟨?_, rfl⟩, fun r f s ti py pr =>
    ⟨encodeFoldRows_unrecognized task hsup hclu r f s ti py pr, rfl⟩⟩
  obtain ⟨a, ha⟩ : ∃ a, task.num_repeats = a + 1 :=
    ⟨task.num_repeats - 1, (Nat.succ_pred_eq_of_pos h1).symm⟩
  obtain ⟨b, hb⟩ : ∃ b, task.num_folds = b + 1 :=
    ⟨task.num_folds - 1, (Nat.succ_pred_eq_of_pos h2).symm⟩
  obtain ⟨c, hc⟩ : ∃ c, task.num_samples = c + 1 :=
    ⟨task.num_samples - 1, (Nat.succ_pred_eq_of_pos h3).symm⟩
  have hin : ∀ (st : SweepState M) (r f : Nat),
      (List.range task.num_samples).foldlM
        (fun st s => sweepBody ext model task al st r f s) st
      = Except.error RunError.notImplementedTaskType := by
    intro st r f
    rw [hc, List.range_succ_eq_map]
    exact foldlM_error_head _ _ _ _ _
      (sweepBody_unrecognized ext model task al hsup hclu st r f 0)
  have hmid : ∀ (st : SweepState M) (r : Nat),
      (List.range task.num_folds).foldlM
        (fun st f => (List.range task.num_samples).foldlM
          (fun st s => sweepBody ext model task al st r f s) st) st
      = Except.error RunError.notImplementedTaskType := by
    intro st r
    rw [hb, List.range_succ_eq_map]
    exact foldlM_error_head _ _ _ _ _ (hin st r 0)
  have hout :
      (List.range task.num_repeats).foldlM
        (fun st r => (List.range task.num_folds).foldlM
          (fun st f => (List.range task.num_samples).foldlM
            (fun st s => sweepBody ext model task al st r f s) st) st)
        (initState M)
      = Except.error RunError.notImplementedTaskType := by
    rw [ha, List.range_succ_eq_map]
    exact foldlM_error_head _ _ _ _ _ (hmid (initState M) 0)
  rw [run_task_get_arffcontent, hout]
  rfl

/-- Witness for C8: a subgroup-discovery task on a 1×1×1 grid fails both
the sweep and the encoder with the two `UnsupportedTaskType` conditions. -/
theorem unsupported_task_type_fails_witness :
    let task : Task :=
      { task_id := 1, taskType := TaskType.subgroupDiscovery,
        num_repeats := 1, num_folds := 1, num_samples := 1,
        class_labels := [],
        y := fun _ => Pred.cls 0,
        test_indices := fun _ _ _ => [0],
        train_indices := fun _ _ _ => [] }
    let ext : Extension Nat :=
      { run_model_on_fold := fun _ _ _ _ _ =>
          { pred_y := [], proba_y := [], measures := [], model_fold := 0 }
        is_hpo_class := fun _ => false
        extract_trace_data := fun _ _ _ => [] }
    run_task_get_arffcontent ext 0 task false
        = Except.error RunError.notImplementedTaskType
      ∧ encodeFoldRows task 0 0 0 [0] [] []
        = Except.error RunError.typeErrorTaskType := by
  intro task ext
  obtain ⟨⟨hrun, _⟩, henc⟩ :=
    unsupported_task_type_fails ext 0 task false (by decide) (by decide)
      (by decide) (by decide) (by decide)
  exact ⟨hrun, (henc 0 0 0 [0] [] []).1⟩

/-! ## Theorems: the run document decoder -/

theorem exceptBindOk {ε α β : Type} {x : Except ε α} {f : α → Except ε β}
    {b : β} (h : x >>= f = Except.ok b) :
    ∃ a, x = Except.ok a ∧ f a = Except.ok b := by
  cases x with
  | ok a => exact ⟨a, rfl, h⟩
  | error e => exact absurd h (by simp [Bind.bind, Except.bind])

theorem obtain_field_ok_ne_none {α : Type} {x : XmlField α} {n : String}
    {c : Bool} {v : Option α} (h : obtain_field x n true c = Except.ok v) :
    x ≠ none := by
  intro hx
  subst hx
  simp [obtain_field] at h

theorem obtain_field_lenient_ok {α : Type} {x : XmlField α} {n : String}
    {c : Bool} {v : Option α} (h : obtain_field x n false c = Except.ok v) :
    v = x.join := by
  match x with
  | none =>
      simp only [obtain_field, Bool.not_false, if_pos] at h
      cases h
      rfl
  | some none =>
      cases c with
      | false =>
          simp only [obtain_field, if_neg] at h
          cases h
          rfl
      | true => simp [obtain_field] at h
  | some (some a) =>
      simp only [obtain_field] at h
      cases h
      rfl

theorem create_run_strict_required {run : RunXml} {tt : Int → TaskType}
    {rec : OpenMLRunRec}
    (h : create_run_from_xml run true tt = Except.ok rec) :
    run.run_id ≠ none ∧ run.uploader ≠ none ∧ run.uploader_name ≠ none
    ∧ run.task_id ≠ none ∧ run.task_type ≠ none ∧ run.flow_id ≠ none
    ∧ run.flow_name ≠ none ∧ run.setup_id ≠ none ∧ run.setup_string ≠ none
    ∧ run.input_data_dataset_did ≠ none ∧ run.output_data ≠ none := by
  rw [create_run_from_xml] at h
  obtain ⟨a1, h1, h⟩ := exceptBindOk h
  obtain ⟨a2, h2, h⟩ := exceptBindOk h
  obtain ⟨a3, h3, h⟩ := exceptBindOk h
  obtain ⟨a4, h4, h⟩ := exceptBindOk h
  obtain ⟨a5, h5, h⟩ := exceptBindOk h
  obtain ⟨a6, h6, h⟩ := exceptBindOk h
  obtain ⟨a7, h7, h⟩ := exceptBindOk h
  obtain ⟨a8, h8, h⟩ := exceptBindOk h
  obtain ⟨a9, h9, h⟩ := exceptBindOk h
  obtain ⟨a10, h10, h⟩ := exceptBindOk h
  obtain ⟨a11, h11, h⟩ := exceptBindOk h
  have htask : run.task_id ≠ none := by
    intro hx
    rw [hx] at h4
    exact absurd h4 (by simp [read_task_id])
  have hflow : run.flow_id ≠ none := by
    have hfn : flow_id_is_null run.flow_id true = Except.ok false := by
      simp [flow_id_is_null]
    rw [hfn] at h6
    injection h6 with h6e
    rw [← h6e] at h7
    rw [read_flow_and_parameters] at h7
    simp only [Bool.false_eq_true, if_false] at h7
    obtain ⟨af, hf, _⟩ := exceptBindOk h7
    exact obtain_field_ok_ne_none hf
  have hod : run.output_data ≠ none := by
    intro hx
    rw [hx] at h11
    exact absurd h11 (by simp [read_output_data])
  have hdid : run.input_data_dataset_did ≠ none := by
    intro hx
    rw [hx] at h
    simp only [read_dataset_id, Bool.not_true, Bool.false_eq_true,
      if_false] at h
    split at h
    · exact absurd h (by simp)
    · split at h
      · split at h <;> exact absurd h (by simp)
      · exact absurd h (by simp)
  exact ⟨obtain_field_ok_ne_none h1, obtain_field_ok_ne_none h2,
    obtain_field_ok_ne_none h3, htask, obtain_field_ok_ne_none h5, hflow,
    obtain_field_ok_ne_none h8, obtain_field_ok_ne_none h9,
    obtain_field_ok_ne_none h10, hdid, hod⟩

theorem read_dataset_id_lenient (x : Option Int) :
    read_dataset_id x false = some x := by
  cases x <;> simp [read_dataset_id]

theorem create_run_lenient_char {run : RunXml} {tt : Int → TaskType}
    {rec : OpenMLRunRec}
    (h : create_run_from_xml run false tt = Except.ok rec) :
    rec.run_id = run.run_id.join
    ∧ rec.uploader = run.uploader.join
    ∧ rec.uploader_name = run.uploader_name.join
    ∧ (∃ t, run.task_id = some (some t) ∧ rec.task_id = t)
    ∧ rec.task_type = run.task_type.join
    ∧ rec.task_evaluation_measure = run.task_evaluation_measure.join
    ∧ (∃ fv, run.flow_id = some fv
        ∧ (fv = none → rec.flow_id = none ∧ rec.parameter_settings = none))
    ∧ rec.flow_name = run.flow_name.join
    ∧ rec.setup_id = run.setup_id.join
    ∧ rec.setup_string = run.setup_string.join
    ∧ rec.dataset_id = run.input_data_dataset_did
    ∧ (run.output_data = none → rec.output_files = []) := by
  rw [create_run_from_xml] at h
  obtain ⟨a1, h1, h⟩ := exceptBindOk h
  obtain ⟨a2, h2, h⟩ := exceptBindOk h
  obtain ⟨a3, h3, h⟩ := exceptBindOk h
  obtain ⟨a4, h4, h⟩ := exceptBindOk h
  obtain ⟨a5, h5, h⟩ := exceptBindOk h
  obtain ⟨a6, h6, h⟩ := exceptBindOk h
  obtain ⟨a7, h7, h⟩ := exceptBindOk h
  obtain ⟨a8, h8, h⟩ := exceptBindOk h
  obtain ⟨a9, h9, h⟩ := exceptBindOk h
  obtain ⟨a10, h10, h⟩ := exceptBindOk h
  obtain ⟨a11, h11, h⟩ := exceptBindOk h
  obtain ⟨t, hxt, hat⟩ : ∃ t, run.task_id = some (some t) ∧ a4 = t := by
    rcases hx : run.task_id with _ | (_ | v)
    · rw [hx] at h4
      exact absurd h4 (by simp [read_task_id])
    · rw [hx] at h4
      exact absurd h4 (by simp [read_task_id])
    · rw [hx] at h4
      refine ⟨v, rfl, ?_⟩
      rw [show read_task_id (some (some v)) = Except.ok v from rfl] at h4
      injection h4 with e
      exact e.symm
  obtain ⟨fv, hxf, haf⟩ : ∃ fv, run.flow_id = some fv ∧ a6 = fv.isNone := by
    rcases hx : run.flow_id with _ | fv
    · rw [hx] at h6
      exact absurd h6 (by simp [flow_id_is_null])
    · rw [hx] at h6
      refine ⟨fv, rfl, ?_⟩
      rw [show flow_id_is_null (some fv) false = Except.ok fv.isNone from by
        simp [flow_id_is_null]] at h6
      injection h6 with e
      exact e.symm
  have hflow : fv = none → a7 = (none, none) := by
    intro hfv
    subst hfv
    rw [haf] at h7
    rw [show read_flow_and_parameters run false (none : Option Int).isNone
      = Except.ok (none, none) from by simp [read_flow_and_parameters]] at h7
    injection h7 with e
    exact e.symm
  have hfiles : run.output_data = none → a11 = ([], ([], [], [])) := by
    intro hod
    rw [hod] at h11
    rw [show read_output_data none false = Except.ok ([], ([], [], []))
      from by simp [read_output_data]] at h11
    injection h11 with e
    exact e.symm
  simp only [Bool.and_false, Bool.false_eq_true, if_false] at h
  rw [read_dataset_id_lenient] at h
  have hrec : rec =
      { run_id := a1, uploader := a2, uploader_name := a3, task_id := a4,
        task_type := a5,
        task_evaluation_measure := run.task_evaluation_measure.join,
        flow_id := a7.1, flow_name := a8, setup_id := a9, setup_string := a10,
        parameter_settings := a7.2,
        dataset_id := run.input_data_dataset_did,
        output_files := a11.1, evaluations := a11.2.1,
        fold_evaluations := a11.2.2.1, sample_evaluations := a11.2.2.2,
        tags := run.tag } := by
    injection h with e
    exact e.symm
  subst hrec
  refine ⟨obtain_field_lenient_ok h1, obtain_field_lenient_ok h2,
    obtain_field_lenient_ok h3, ⟨t, hxt, hat⟩, obtain_field_lenient_ok h5,
    rfl, ⟨fv, hxf, ?_⟩, obtain_field_lenient_ok h8,
    obtain_field_lenient_ok h9, obtain_field_lenient_ok h10, rfl, ?_⟩
  · intro hfv
    rw [hflow hfv]
    exact ⟨rfl, rfl⟩
  · intro hod
    rw [hfiles hod]

/-- Counterexample to C4 as stated: a lenient-mode (locally authored)
document with every field present except `oml:task_id` does not resolve
the absent field to `None` — decoding raises `KeyError` because the task
id is read by direct subscript in both modes. -/
theorem decode_lenient_absent_task_id_errors :
    create_run_from_xml
      { run_id := some (some 1), uploader := some (some 2),
        uploader_name := some (some "u"), task_id := none,
        task_type := some (some "Supervised Classification"),
        task_evaluation_measure := none, flow_id := some (some 3),
        flow_name := some (some "f"), setup_id := some (some 4),
        setup_string := some (some "s"), parameter_setting := some [],
        input_data_dataset_did := some 5,
        output_data := some { file := [⟨"description", 1⟩,
          ⟨"predictions", 2⟩], evaluation := [] }, tag := [] }
      false (fun _ => TaskType.classification)
      = Except.error (DecodeError.keyError "oml:task_id") := by
  rfl

/-- C4 (amended): in strict mode decoding succeeds only when every
required field is present (so any absence raises an error); in lenient
mode absent fields resolve to `None` — except `task_id` and `flow_id`,
whose keys are subscripted unconditionally, so lenient success requires
their presence and their absence raises `KeyError`; a lenient document
whose flow id is present but null yields `flow_id = None` and no
parameter settings. -/
theorem decode_strict_lenient_field_policy (run : RunXml)
    (tt : Int → TaskType) :
    (∀ rec, create_run_from_xml run true tt = Except.ok rec →
        run.run_id ≠ none ∧ run.uploader ≠ none ∧ run.uploader_name ≠ none
        ∧ run.task_id ≠ none ∧ run.task_type ≠ none ∧ run.flow_id ≠ none
        ∧ run.flow_name ≠ none ∧ run.setup_id ≠ none
        ∧ run.setup_string ≠ none ∧ run.input_data_dataset_did ≠ none
        ∧ run.output_data ≠ none)
    ∧ (∀ rec, create_run_from_xml run false tt = Except.ok rec →
        (run.run_id = none → rec.run_id = none)
        ∧ (run.uploader = none → rec.uploader = none)
        ∧ (run.uploader_name = none → rec.uploader_name = none)
        ∧ (run.task_type = none → rec.task_type = none)
        ∧ (run.task_evaluation_measure = none →
            rec.task_evaluation_measure = none)
        ∧ (run.flow_name = none → rec.flow_name = none)
        ∧ (run.setup_id = none → rec.setup_id = none)
        ∧ (run.setup_string = none → rec.setup_string = none)
        ∧ (run.input_data_dataset_did = none → rec.dataset_id = none)
        ∧ (run.output_data = none → rec.output_files = [])
        ∧ run.task_id ≠ none ∧ run.flow_id ≠ none
        ∧ (run.flow_id = some none →
            rec.flow_id = none ∧ rec.parameter_settings = none)) := by
  constructor
  · intro rec h
    exact create_run_strict_required h
  · intro rec h
    obtain ⟨e1, e2, e3, ⟨t, ht, _⟩, e5, e6, ⟨fv, hfv, hnull⟩, e8, e9, e10,
      e11, e12⟩ := create_run_lenient_char h
    refine ⟨?_, ?_, ?_, ?_, ?_, ?_, ?_, ?_, ?_, e12, ?_, ?_, ?_⟩
    · intro hx; rw [e1, hx]; rfl
    · intro hx; rw [e2, hx]; rfl
    · intro hx; rw [e3, hx]; rfl
    · intro hx; rw [e5, hx]; rfl
    · intro hx; rw [e6, hx]; rfl
    · intro hx; rw [e8, hx]; rfl
    · intro hx; rw [e9, hx]; rfl
    · intro hx; rw [e10, hx]; rfl
    · intro hx; rw [e11, hx]
    · rw [ht]; simp
    · rw [hfv]; simp
    · intro hx
      rw [hfv] at hx
      injection hx with e
      exact hnull e

/-- Witness for C4 (amended): a full strict-mode document decodes and all
required fields are indeed present; a minimal lenient-mode document with
only `task_id` present and `flow_id` null decodes with every absent field
`None`, `flow_id = None` and no parameter settings. -/
theorem decode_strict_lenient_field_policy_witness :
    let strictDoc : RunXml :=
      { run_id := some (some 1), uploader := some (some 2),
        uploader_name := some (some "u"), task_id := some (some 7),
        task_type := some (some "Supervised Classification"),
        task_evaluation_measure := none, flow_id := some (some 3),
        flow_name := some (some "f"), setup_id := some (some 4),
        setup_string := some (some "s"), parameter_setting := some [],
        input_data_dataset_did := some 5,
        output_data := some { file := [⟨"description", 1⟩,
          ⟨"predictions", 2⟩], evaluation := [] }, tag := [] }
    let lenientDoc : RunXml :=
      { run_id := none, uploader := none, uploader_name := none,
        task_id := some (some 7), task_type := none,
        task_evaluation_measure := none, flow_id := some none,
        flow_name := none, setup_id := none, setup_string := none,
        parameter_setting := none, input_data_dataset_did := none,
        output_data := none, tag := [] }
    (∃ rec, create_run_from_xml strictDoc true (fun _ => TaskType.classification)
        = Except.ok rec ∧ strictDoc.output_data ≠ none)
    ∧ (∃ rec, create_run_from_xml lenientDoc false
          (fun _ => TaskType.classification) = Except.ok rec
        ∧ rec.run_id = none ∧ rec.task_type = none ∧ rec.dataset_id = none
        ∧ rec.flow_id = none ∧ rec.parameter_settings = none
        ∧ rec.output_files = []) := by
  intro strictDoc lenientDoc
  have hs : create_run_from_xml strictDoc true (fun _ => TaskType.classification)
      = Except.ok
        { run_id := some 1, uploader := some 2, uploader_name := some "u",
          task_id := 7, task_type := some "Supervised Classification",
          task_evaluation_measure := none, flow_id := some 3,
          flow_name := some "f", setup_id := some 4,
          setup_string := some "s", parameter_settings := some [],
          dataset_id := some 5,
          output_files := [("description", 1), ("predictions", 2)],
          evaluations := [], fold_evaluations := [],
          sample_evaluations := [], tags := [] } := by rfl
  have hl : create_run_from_xml lenientDoc false
      (fun _ => TaskType.classification)
      = Except.ok
        { run_id := none, uploader := none, uploader_name := none,
          task_id := 7, task_type := none,
          task_evaluation_measure := none, flow_id := none,
          flow_name := none, setup_id := none, setup_string := none,
          parameter_settings := none, dataset_id := none,
          output_files := [], evaluations := [], fold_evaluations := [],
          sample_evaluations := [], tags := [] } := by rfl
  constructor
  · refine ⟨_, hs, ?_⟩
    exact ((decode_strict_lenient_field_policy strictDoc
      (fun _ => TaskType.classification)).1 _ hs).2.2.2.2.2.2.2.2.2.2
  · obtain ⟨p1, _, _, p4, _, _, _, _, p9, p10, _, _, pflow⟩ :=
      (decode_strict_lenient_field_policy lenientDoc
        (fun _ => TaskType.classification)).2 _ hl
    exact ⟨_, hl, p1 rfl, p4 rfl, p9 rfl, (pflow rfl).1, (pflow rfl).2,
      p10 rfl⟩

theorem obtain_field_present_some {α : Type} (v : α) (n : String)
    (fs c : Bool) : obtain_field (some (some v)) n fs c = Except.ok (some v) :=
  rfl

theorem obtain_field_present_nocast {α : Type} (u : Option α) (n : String)
    (fs : Bool) : obtain_field (some u) n fs false = Except.ok u := by
  cases u <;> rfl

theorem read_dataset_id_some (d : Int) (fs : Bool) :
    read_dataset_id (some d) fs = some (some d) := rfl

theorem flow_id_is_null_strict (x : XmlField Int) :
    flow_id_is_null x true = Except.ok false := rfl

theorem read_flow_params_strict (run : RunXml) (v : Int)
    (hf : run.flow_id = some (some v)) :
    read_flow_and_parameters run true false
      = Except.ok (some v, some (match run.parameter_setting with
          | some ps => ps.map (fun p =>
              { name := p.name, value := p.value, component := p.component })
          | none => [])) := by
  simp [read_flow_and_parameters, hf, obtain_field_present_some,
    Bind.bind, Except.bind]

theorem read_output_data_some (od : OutputData) (fs : Bool) (acc : EvalAcc)
    (hev : od.evaluation.foldlM parseEvaluation (([], [], []) : EvalAcc)
      = Except.ok acc) :
    read_output_data (some od) fs
      = Except.ok (od.file.map (fun f => (f.name, f.file_id)), acc) := by
  simp [read_output_data, hev, Bind.bind, Except.bind]

/-- C9: in strict mode, a decoded run always carries a "predictions" file
(its absence is a hard error for every task kind); when the output files
lack a "predictions" entry (with "description" present so the predictions
check is reached), decoding fails with the explicit not-supported
condition for a subgroup-discovery task and with `ValueError` for every
other task kind. -/
theorem strict_missing_predictions_policy (run : RunXml)
    (tt : Int → TaskType) :
    (∀ rec, create_run_from_xml run true tt = Except.ok rec →
        rec.output_files.any (fun p => p.1 == "predictions") = true)
    ∧ (∀ (i1 i2 i3 i4 t d : Int) (un tty fn ss : Option String)
        (od : OutputData) (acc : EvalAcc),
        run.run_id = some (some i1) → run.uploader = some (some i2) →
        run.uploader_name = some un → run.task_id = some (some t) →
        run.task_type = some tty → run.flow_id = some (some i3) →
        run.flow_name = some fn → run.setup_id = some (some i4) →
        run.setup_string = some ss → run.input_data_dataset_did = some d →
        run.output_data = some od →
        od.evaluation.foldlM parseEvaluation (([], [], []) : EvalAcc)
          = Except.ok acc →
        (od.file.map (fun fe => (fe.name, fe.file_id))).any
          (fun p => p.1 == "description") = true →
        (od.file.map (fun fe => (fe.name, fe.file_id))).any
          (fun p => p.1 == "predictions") = false →
        create_run_from_xml run true tt
          = Except.error (if tt t = TaskType.subgroupDiscovery
              then DecodeError.notImplementedSubgroupDiscovery
              else DecodeError.valueError "No prediction files for run")) := by
  constructor
  · intro rec h
    rw [create_run_from_xml] at h
    obtain ⟨a1, h1, h⟩ := exceptBindOk h
    obtain ⟨a2, h2, h⟩ := exceptBindOk h
    obtain ⟨a3, h3, h⟩ := exceptBindOk h
    obtain ⟨a4, h4, h⟩ := exceptBindOk h
    obtain ⟨a5, h5, h⟩ := exceptBindOk h
    obtain ⟨a6, h6, h⟩ := exceptBindOk h
    obtain ⟨a7, h7, h⟩ := exceptBindOk h
    obtain ⟨a8, h8, h⟩ := exceptBindOk h
    obtain ⟨a9, h9, h⟩ := exceptBindOk h
    obtain ⟨a10, h10, h⟩ := exceptBindOk h
    obtain ⟨a11, h11, h⟩ := exceptBindOk h
    split at h
    · exact absurd h (by simp)
    next hc1 =>
      split at h
      next hc2 => split at h <;> exact absurd h (by simp)
      next hc2 =>
        split at h
        · exact absurd h (by simp)
        next x hx =>
          injection h with e
          rw [← e]
          simpa using hc2
  · intro i1 i2 i3 i4 t d un tty fn ss od acc hr hu hun ht htt2 hf hfn hsi
      hss hd hod hev hdesc hpred
    rw [create_run_from_xml, hr, hu, hun, ht, htt2, hfn, hsi, hss, hd, hod]
    simp only [obtain_field_present_some, obtain_field_present_nocast,
      read_task_id, flow_id_is_null_strict,
      read_flow_params_strict run i3 hf, read_dataset_id_some,
      read_output_data_some od true acc hev, Bind.bind, Except.bind,
      hdesc, hpred, Bool.not_true, Bool.not_false, Bool.and_true,
      Bool.false_eq_true, if_false, if_true]
    split <;> rfl

/-- Witness for C9: a strict-mode document whose output files hold only a
description entry decodes to the not-supported condition when the task is
subgroup discovery and to the missing-predictions error for a
classification task. -/
theorem strict_missing_predictions_policy_witness :
    let noPredDoc : RunXml :=
      { run_id := some (some 1), uploader := some (some 2),
        uploader_name := some (some "u"), task_id := some (some 7),
        task_type := some (some "t"), task_evaluation_measure := none,
        flow_id := some (some 3), flow_name := some (some "f"),
        setup_id := some (some 4), setup_string := some (some "s"),
        parameter_setting := some [], input_data_dataset_did := some 5,
        output_data := some ⟨[⟨"description", 1⟩], []⟩, tag := [] }
    create_run_from_xml noPredDoc true (fun _ => TaskType.subgroupDiscovery)
        = Except.error DecodeError.notImplementedSubgroupDiscovery
    ∧ create_run_from_xml noPredDoc true (fun _ => TaskType.classification)
        = Except.error
            (DecodeError.valueError "No prediction files for run") := by
  intro noPredDoc
  constructor
  · have h := (strict_missing_predictions_policy noPredDoc
      (fun _ => TaskType.subgroupDiscovery)).2 1 2 3 4 7 5
      (some "u") (some "t") (some "f") (some "s")
      { file := [⟨"description", 1⟩], evaluation := [] } ([], [], [])
      rfl rfl rfl rfl rfl rfl rfl rfl rfl rfl rfl rfl (by decide) (by decide)
    simpa using h
  · have h := (strict_missing_predictions_policy noPredDoc
      (fun _ => TaskType.classification)).2 1 2 3 4 7 5
      (some "u") (some "t") (some "f") (some "s")
      { file := [⟨"description", 1⟩], evaluation := [] } ([], [], [])
      rfl rfl rfl rfl rfl rfl rfl rfl rfl rfl rfl rfl (by decide) (by decide)
    simpa using h

end OpenMLRuns
